import Mathlib

/-!
Verification of the treelite-ng tree-ensemble library against its
natural-language specification.

The C++ sources are shallowly embedded:
* floating-point feature/threshold/leaf values are modelled exactly as
  "NaN or a rational number" (every concrete value appearing in the claims is
  exactly representable, and the code only compares and adds such values);
* 32-bit indices are modelled as Int/Nat with explicit range checks where the
  code performs them;
* functions that can hit TREELITE_CHECK / TREELITE_LOG(FATAL) / thrown
  treelite::Error are embedded in the Except String monad.
-/

namespace Treelite

/-- Floating-point value, modelled exactly: NaN or a rational.
    (src: the code instantiates ThresholdT/LeafOutputT/InputT with float or
    double; all values occurring in the claims are exactly representable.) -/
inductive FVal where
  | nan : FVal
  | fin : ℚ → FVal

deriving DecidableEq, Repr

/-- Comparison operators (src/include: enum class Operator). -/
inductive Operator where
  | kNone | kLT | kLE | kEQ | kGT | kGE

deriving DecidableEq, Repr

/-- Node types (src/include: enum class TreeNodeType). -/
inductive TreeNodeType where
  | kLeafNode | kNumericalTestNode | kCategoricalTestNode

deriving DecidableEq, Repr

/-- Task types (src/include: enum class TaskType). -/
inductive TaskType where
  | kRegressor | kBinaryClf | kMultiClf | kLearningToRank | kIsolationForest

deriving DecidableEq, Repr

/-- TypeInfo tags for the threshold / leaf-output type parameters
    (src/unnamed/part_009: typeinfo.h). -/
inductive TypeInfo where
  | kInvalid | kUInt32 | kFloat32 | kFloat64

deriving DecidableEq, Repr

deriving instance DecidableEq for Except

/-- IEEE comparison x OP t where t may be NaN: any comparison with NaN is false.
    At the call sites the left operand is already guarded to be non-NaN. -/
def fcmp (op : Operator) (x : ℚ) (t : FVal) : Option Bool :=
  match t with
  | FVal.nan =>
    match op with
    | Operator.kNone => none
    | _ => some false
  | FVal.fin tv =>
    match op with
    | Operator.kNone => none
    | Operator.kLT => some (decide (x < tv))
    | Operator.kLE => some (decide (x ≤ tv))
    | Operator.kEQ => some (decide (x = tv))
    | Operator.kGT => some (decide (x > tv))
    | Operator.kGE => some (decide (x ≥ tv))

/-- src/unnamed/part_015 (predict.cc), NextNode: pick the left child if the
    comparison holds, the right child otherwise; an unrecognized operator tag
    (kNone) is a fatal error, modelled as none. -/
def NextNode (fvalue : ℚ) (threshold : FVal) (op : Operator)
    (left_child right_child : Int) : Option Int :=
  (fcmp op fvalue threshold).map (fun cond => if cond then left_child else right_child)

/-- Largest integer magnitude accepted as a category, from
    src/unnamed/part_015 NextNodeCategorical:
    min(static_cast of u32 max, 2^(mantissa digits)).
    For digits = 24 (float) this is 2^24; for digits = 53 (double) it is
    4294967295 = u32 max, in both cases equal to min(u32 max, 2^digits). -/
def maxRepresentableInt (digits : Nat) : ℚ :=
  min (4294967295 : ℚ) ((2 : ℚ) ^ digits)

/-- static_cast from a non-negative floating value to uint32, i.e. truncation
    toward zero (the call site guarantees 0 ≤ x ≤ maxRepresentableInt). -/
def truncToU32 (x : ℚ) : Nat := x.floor.toNat

/-- src/unnamed/part_015 (predict.cc), NextNodeCategorical. -/
def NextNodeCategorical (digits : Nat) (fvalue : ℚ) (category_list : List Nat)
    (category_list_right_child : Bool) (left_child right_child : Int) : Int :=
  let category_matched : Bool :=
    if fvalue < 0 ∨ |fvalue| > maxRepresentableInt digits then false
    else category_list.contains (truncToU32 fvalue)
  if category_list_right_child then
    if category_matched then right_child else left_child
  else
    if category_matched then left_child else right_child

/-- One tree node (src/include/treelite/detail/tree.h: struct Node fields, as
    initialized by Node::Init and mutated by the setters).  default_left is
    encoded in bit 31 of sindex, as done by SetNumericalSplit /
    SetCategoricalSplit. -/
structure Node where
  cleft : Int
  cright : Int
  sindex : Nat
  leaf_value : ℚ
  threshold : FVal
  cmp : Operator
  node_type : TreeNodeType
  categories_list_right_child : Bool
  data_count : Nat
  sum_hess : ℚ
  gain : ℚ
  data_count_present : Bool
  sum_hess_present : Bool
  gain_present : Bool

deriving DecidableEq, Repr

/-- src/include/treelite/detail/tree.h, Node::Init. -/
def Node.initNode : Node :=
  { cleft := -1, cright := -1, sindex := 0, leaf_value := 0,
    threshold := FVal.fin 0, cmp := Operator.kNone,
    node_type := TreeNodeType.kLeafNode, categories_list_right_child := false,
    data_count := 0, sum_hess := 0, gain := 0,
    data_count_present := false, sum_hess_present := false, gain_present := false }

/-- One decision tree (src/include/treelite/detail/tree.h together with the
    Tree class of tree.h in src/unnamed/part_007): node array plus
    variable-length pools for leaf vectors and category lists. -/
structure Tree where
  num_nodes : Nat
  nodes : List Node
  leaf_vector : List ℚ
  leaf_vector_begin : List Nat
  leaf_vector_end : List Nat
  matching_categories : List Nat
  matching_categories_offset : List Nat
  has_categorical_split : Bool

deriving DecidableEq, Repr

/-- Node lookup; indices are in range in every reachable state. -/
def Tree.node (t : Tree) (nid : Nat) : Node := t.nodes.getD nid Node.initNode

/-- Getter tree.h: LeftChild. -/
def Tree.LeftChild (t : Tree) (nid : Nat) : Int := (t.node nid).cleft

/-- Getter tree.h: RightChild. -/
def Tree.RightChild (t : Tree) (nid : Nat) : Int := (t.node nid).cright

/-- Getter tree.h: SplitIndex (sindex with the default_left bit masked off). -/
def Tree.SplitIndex (t : Tree) (nid : Nat) : Nat := (t.node nid).sindex % 2 ^ 31

/-- Getter tree.h: DefaultLeft (bit 31 of sindex). -/
def Tree.DefaultLeft (t : Tree) (nid : Nat) : Bool := decide ((t.node nid).sindex ≥ 2 ^ 31)

/-- Modelled from the spec: the Node::DefaultChild accessor body is not under
    src/ (only its declaration in tree.h is); the spec says the default child
    is the left or the right child depending on default_left. -/
def Tree.DefaultChild (t : Tree) (nid : Nat) : Int :=
  if t.DefaultLeft nid then t.LeftChild nid else t.RightChild nid

/-- Modelled from the spec: Node::IsLeaf body is not under src/; the spec says
    a leaf node has both children = -1 (SetLeaf / SetLeafVector establish
    cleft = cright = -1 together with node_type = kLeafNode). -/
def Tree.IsLeaf (t : Tree) (nid : Nat) : Bool := (t.node nid).cleft == -1

/-- Getter tree.h: NodeType. -/
def Tree.NodeTypeAt (t : Tree) (nid : Nat) : TreeNodeType := (t.node nid).node_type

/-- Getter tree.h: Threshold. -/
def Tree.ThresholdAt (t : Tree) (nid : Nat) : FVal := (t.node nid).threshold

/-- Getter tree.h: ComparisonOp. -/
def Tree.ComparisonOp (t : Tree) (nid : Nat) : Operator := (t.node nid).cmp

/-- Getter tree.h: CategoriesListRightChild. -/
def Tree.CategoriesListRightChild (t : Tree) (nid : Nat) : Bool :=
  (t.node nid).categories_list_right_child

/-- Getter tree.h: LeafValue. -/
def Tree.LeafValue (t : Tree) (nid : Nat) : ℚ := (t.node nid).leaf_value

/-- Getter tree.h LeafVector: slice [begin, end) of the pool, or the empty
    list when the offsets fall outside the pool. -/
def Tree.LeafVectorAt (t : Tree) (nid : Nat) : List ℚ :=
  if t.leaf_vector_begin.getD nid 0 ≥ t.leaf_vector.length
      ∨ t.leaf_vector_end.getD nid 0 > t.leaf_vector.length then []
  else (t.leaf_vector.drop (t.leaf_vector_begin.getD nid 0)).take
    (t.leaf_vector_end.getD nid 0 - t.leaf_vector_begin.getD nid 0)

/-- Getter tree.h: HasLeafVector. -/
def Tree.HasLeafVector (t : Tree) (nid : Nat) : Bool :=
  t.leaf_vector_begin.getD nid 0 != t.leaf_vector_end.getD nid 0

/-- Getter tree.h MatchingCategories (called CategoryList at the predict.cc
    call site): slice [offset nid, offset (nid+1)) of the category pool, or
    empty when out of range. -/
def Tree.MatchingCategoriesAt (t : Tree) (nid : Nat) : List Nat :=
  if t.matching_categories_offset.getD nid 0 ≥ t.matching_categories.length
      ∨ t.matching_categories_offset.getD (nid + 1) 0 > t.matching_categories.length then []
  else (t.matching_categories.drop (t.matching_categories_offset.getD nid 0)).take
    (t.matching_categories_offset.getD (nid + 1) 0 - t.matching_categories_offset.getD nid 0)

/-- Update one node in place (indices are in range in reachable states;
    List.set is a no-op out of range, mirroring that such calls cannot occur). -/
def Tree.setNode (t : Tree) (nid : Nat) (f : Node → Node) : Tree :=
  { t with nodes := t.nodes.set nid (f (t.node nid)) }

/-- src/include/treelite/detail/tree.h, Tree::Init: one root node, set as a
    leaf with zero value. -/
def Tree.InitTree : Tree :=
  { num_nodes := 1,
    nodes := [{ Node.initNode with node_type := TreeNodeType.kLeafNode }],
    leaf_vector := [], leaf_vector_begin := [0], leaf_vector_end := [0],
    matching_categories := [], matching_categories_offset := [0, 0],
    has_categorical_split := false }

/-- src/include/treelite/detail/tree.h, Tree::AllocNode: append one
    default-initialized node, growing the parallel arrays; throws if the node
    array length disagrees with num_nodes. -/
def Tree.AllocNode (t : Tree) : Except String (Tree × Nat) :=
  if t.nodes.length ≠ t.num_nodes then
    Except.error "Invariant violated: nodes_ contains incorrect number of nodes"
  else
    Except.ok ({ t with
                   num_nodes := t.num_nodes + 1,
                   nodes := t.nodes ++ [Node.initNode],
                   leaf_vector_begin := t.leaf_vector_begin ++ [0],
                   leaf_vector_end := t.leaf_vector_end ++ [0],
                   matching_categories_offset :=
                     t.matching_categories_offset ++ [t.matching_categories_offset.getLastD 0] },
                t.num_nodes)

/-- src/include/treelite/detail/tree.h, Tree::AddChilds: allocate two children
    and wire them to nid. -/
def Tree.AddChilds (t : Tree) (nid : Nat) : Except String Tree :=
  match t.AllocNode with
  | Except.error e => Except.error e
  | Except.ok (t1, cleft) =>
    match t1.AllocNode with
    | Except.error e => Except.error e
    | Except.ok (t2, cright) =>
      Except.ok (t2.setNode nid (fun n => { n with cleft := cleft, cright := cright }))

/-- int32 → uint32 conversion (modular), as happens when the builder passes a
    std::int32_t split index to the unsigned parameter of the setters. -/
def toU32 (x : Int) : Nat := (x % 2 ^ 32).toNat

/-- src/include/treelite/detail/tree.h, Tree::SetNumericalSplit. -/
def Tree.SetNumericalSplit (t : Tree) (nid : Nat) (split_index : Nat)
    (threshold : FVal) (default_left : Bool) (cmp : Operator) : Except String Tree :=
  if split_index ≥ 2 ^ 31 - 1 then
    Except.error "split_index too big"
  else
    Except.ok (t.setNode nid (fun n =>
      { n with sindex := if default_left then split_index + 2 ^ 31 else split_index,
               threshold := threshold, cmp := cmp,
               node_type := TreeNodeType.kNumericalTestNode,
               categories_list_right_child := false }))

/-- src/include/treelite/detail/tree.h, Tree::SetCategoricalSplit: appends the
    category list at the tail of the pool, sorts the appended range in place,
    and rewrites every offset from nid+1 on to the new tail. -/
def Tree.SetCategoricalSplit (t : Tree) (nid : Nat) (split_index : Nat)
    (default_left : Bool) (categories_list : List Nat)
    (categories_list_right_child : Bool) : Except String Tree :=
  if split_index ≥ 2 ^ 31 - 1 then
    Except.error "split_index too big"
  else if t.matching_categories_offset.getLastD 0 ≠ t.matching_categories.length then
    Except.error "Invariant violated"
  else if ¬ (t.matching_categories_offset.drop (nid + 1)).all
      (fun x => x == t.matching_categories_offset.getLastD 0) then
    Except.error "Invariant violated"
  else if nid + 1 ≥ t.matching_categories_offset.length then
    Except.error "Invariant violated"
  else
    Except.ok
      { (t.setNode nid (fun n =>
           { n with sindex := if default_left then split_index + 2 ^ 31 else split_index,
                    node_type := TreeNodeType.kCategoricalTestNode,
                    categories_list_right_child := categories_list_right_child })) with
        matching_categories :=
          t.matching_categories ++ categories_list.insertionSort (fun a b => a ≤ b),
        matching_categories_offset :=
          t.matching_categories_offset.take (nid + 1)
            ++ (t.matching_categories_offset.drop (nid + 1)).map
              (fun _ => t.matching_categories_offset.getLastD 0 + categories_list.length),
        has_categorical_split := true }

/-- src/include/treelite/detail/tree.h, Tree::SetLeaf. -/
def Tree.SetLeaf (t : Tree) (nid : Nat) (value : ℚ) : Tree :=
  t.setNode nid (fun n =>
    { n with leaf_value := value, cleft := -1, cright := -1,
             node_type := TreeNodeType.kLeafNode })

/-- src/include/treelite/detail/tree.h, Tree::SetLeafVector. -/
def Tree.SetLeafVector (t : Tree) (nid : Nat) (vals : List ℚ) : Tree :=
  let b := t.leaf_vector.length
  let e := b + vals.length
  { (t.setNode nid (fun n =>
      { n with cleft := -1, cright := -1, node_type := TreeNodeType.kLeafNode })) with
    leaf_vector := t.leaf_vector ++ vals,
    leaf_vector_begin := t.leaf_vector_begin.set nid b,
    leaf_vector_end := t.leaf_vector_end.set nid e }

/-- Modelled from the spec: Tree::SetChildren is declared in the tree header
    but its body is not under src/; it records the two child ids of a node
    (the builder stores user keys here and rewrites them at EndTree). -/
def Tree.SetChildren (t : Tree) (nid : Nat) (cleft cright : Int) : Tree :=
  t.setNode nid (fun n => { n with cleft := cleft, cright := cright })

/-- src/include/treelite/detail/tree.h, Tree::SetGain. -/
def Tree.SetGain (t : Tree) (nid : Nat) (g : ℚ) : Tree :=
  t.setNode nid (fun n => { n with gain := g, gain_present := true })

/-- src/include/treelite/detail/tree.h, Tree::SetDataCount. -/
def Tree.SetDataCount (t : Tree) (nid : Nat) (c : Nat) : Tree :=
  t.setNode nid (fun n => { n with data_count := c, data_count_present := true })

/-- src/include/treelite/detail/tree.h, Tree::SetSumHess. -/
def Tree.SetSumHess (t : Tree) (nid : Nat) (s : ℚ) : Tree :=
  t.setNode nid (fun n => { n with sum_hess := s, sum_hess_present := true })

/-- One iteration of the traversal loop in src/unnamed/part_015 EvaluateTree:
    NaN routes to the default child; otherwise the numerical or categorical
    test decides; an unrecognized operator tag is fatal. -/
def evalStep (digits : Nat) (t : Tree) (row : List FVal) (nid : Nat) : Except String Int :=
  match row.getD (t.SplitIndex nid) FVal.nan with
  | FVal.nan => Except.ok (t.DefaultChild nid)
  | FVal.fin x =>
    if t.NodeTypeAt nid = TreeNodeType.kCategoricalTestNode then
      Except.ok (NextNodeCategorical digits x (t.MatchingCategoriesAt nid)
        (t.CategoriesListRightChild nid) (t.LeftChild nid) (t.RightChild nid))
    else
      match NextNode x (t.ThresholdAt nid) (t.ComparisonOp nid)
          (t.LeftChild nid) (t.RightChild nid) with
      | none => Except.error "Unrecognized comparison operator"
      | some nxt => Except.ok nxt

/-- The while loop of src/unnamed/part_015 EvaluateTree, unrolled a given
    number of iterations: ok (some leaf) once a leaf is reached, ok none when
    the iteration budget is exhausted with the loop still running (the C++
    loop has no iteration cap and would simply continue). -/
def evalFrom (digits : Nat) (t : Tree) (row : List FVal) : Nat → Nat → Except String (Option Nat)
  | nid, 0 => if t.IsLeaf nid then Except.ok (some nid) else Except.ok none
  | nid, fuel + 1 =>
    if t.IsLeaf nid then Except.ok (some nid)
    else do
      let nxt ← evalStep digits t row nid
      evalFrom digits t row nxt.toNat fuel

/-- Prediction-relevant portion of the Model class (tree.h in
    src/unnamed/part_007) as consumed by src/unnamed/part_015. -/
structure PModel where
  num_feature : Nat
  num_target : Nat
  num_class : List Nat
  leaf_vector_shape : List Nat
  target_id : List Int
  class_id : List Int
  base_scores : List ℚ
  average_tree_output : Bool
  postprocessor : String
  leaf_output_type : TypeInfo
  trees : List Tree

deriving DecidableEq, Repr

/-- Mantissa digits of InputT (= LeafOutputT): 24 for float32, 53 for float64. -/
def PModel.digits (m : PModel) : Nat :=
  match m.leaf_output_type with
  | TypeInfo.kFloat32 => 24
  | _ => 53

/-- max_element over num_class (src/unnamed/part_015 PredictRaw). -/
def PModel.maxNumClass (m : PModel) : Nat := m.num_class.foldl Nat.max 0

/-- Row-major (layout_right) flat index into the
    (num_target, num_row, max_num_class) output view. -/
def outIdx (num_row max_class target row cls : Nat) : Nat :=
  (target * num_row + row) * max_class + cls

/-- output_view(...) += v. -/
def addAt (out : List ℚ) (i : Nat) (v : ℚ) : List ℚ := out.set i (out.getD i 0 + v)

/-- src/unnamed/part_015, OutputLeafVector: leaf-vector write-out routed by
    (target_id, class_id), with the TREELITE_CHECKs on leaf_vector_shape. -/
def OutputLeafVector (m : PModel) (t : Tree) (tree_id leaf_id row_id max_num_class num_row : Nat)
    (out : List ℚ) : Except String (List ℚ) := do
  let leaf_out := t.LeafVectorAt leaf_id
  let tgt := m.target_id.getD tree_id 0
  let cls := m.class_id.getD tree_id 0
  if tgt = -1 ∧ cls = -1 then
    if m.leaf_vector_shape ≠ [m.num_target, max_num_class] then
      throw "Check failed: leaf_vector_shape"
    pure ((List.range m.num_target).foldl (fun acc t_id =>
      (List.range (m.num_class.getD t_id 0)).foldl (fun acc2 c_id =>
        addAt acc2 (outIdx num_row max_num_class t_id row_id c_id)
          (leaf_out.getD (t_id * max_num_class + c_id) 0)) acc) out)
  else if tgt = -1 then
    if m.leaf_vector_shape ≠ [m.num_target, 1] then
      throw "Check failed: leaf_vector_shape"
    pure ((List.range m.num_target).foldl (fun acc t_id =>
      addAt acc (outIdx num_row max_num_class t_id row_id cls.toNat)
        (leaf_out.getD t_id 0)) out)
  else if cls = -1 then
    if m.leaf_vector_shape ≠ [1, max_num_class] then
      throw "Check failed: leaf_vector_shape"
    pure ((List.range (m.num_class.getD tgt.toNat 0)).foldl (fun acc c_id =>
      addAt acc (outIdx num_row max_num_class tgt.toNat row_id c_id)
        (leaf_out.getD c_id 0)) out)
  else
    if m.leaf_vector_shape ≠ [1, 1] then
      throw "Check failed: leaf_vector_shape"
    pure (addAt out (outIdx num_row max_num_class tgt.toNat row_id cls.toNat)
      (leaf_out.getD 0 0))

/-- src/unnamed/part_015, OutputLeafValue: scalar leaf write-out; requires
    target_id and class_id to be concrete (not -1) and shape [1,1]. -/
def OutputLeafValue (m : PModel) (t : Tree) (tree_id leaf_id row_id max_num_class num_row : Nat)
    (out : List ℚ) : Except String (List ℚ) := do
  let tgt := m.target_id.getD tree_id 0
  let cls := m.class_id.getD tree_id 0
  if ¬ (tgt ≠ -1 ∧ cls ≠ -1) then
    throw "Check failed: target_id != -1 && class_id != -1"
  if m.leaf_vector_shape ≠ [1, 1] then
    throw "Check failed: leaf_vector_shape"
  pure (addAt out (outIdx num_row max_num_class tgt.toNat row_id cls.toNat)
    (t.LeafValue leaf_id))

/-- src/unnamed/part_015, PredictRaw: zero the output, accumulate every tree's
    leaf output per row, then add base scores broadcast over rows.  The tree
    traversal is given num_nodes iterations of budget, enough for every
    terminating traversal of a well-formed tree (the C++ loop is unbounded). -/
def predictRaw (m : PModel) (rows : List (List FVal)) : Except String (List ℚ) := do
  let num_row := rows.length
  let maxc := m.maxNumClass
  let init := List.replicate (m.num_target * num_row * maxc) (0 : ℚ)
  let out ← (List.range num_row).foldlM (fun out row_id => do
    let row := rows.getD row_id []
    (List.range m.trees.length).foldlM (fun out2 tree_id => do
      let t := m.trees.getD tree_id Tree.InitTree
      let leafOpt ← evalFrom m.digits t row 0 t.num_nodes
      match leafOpt with
      | none => throw "traversal did not terminate"
      | some leaf_id =>
        if t.HasLeafVector leaf_id then
          OutputLeafVector m t tree_id leaf_id row_id maxc num_row out2
        else
          OutputLeafValue m t tree_id leaf_id row_id maxc num_row out2) out) init
  pure ((List.range m.num_target).foldl (fun acc t_id =>
    (List.range num_row).foldl (fun acc2 row_id =>
      (List.range (m.num_class.getD t_id 0)).foldl (fun acc3 c_id =>
        addAt acc3 (outIdx num_row maxc t_id row_id c_id)
          (m.base_scores.getD (t_id * maxc + c_id) 0)) acc2) acc) out)

/-- src/unnamed/part_015, PredictLeaf: one leaf id per (row, tree). -/
def predictLeaf (m : PModel) (rows : List (List FVal)) : Except String (List ℚ) := do
  let results ← rows.mapM (fun row =>
    m.trees.mapM (fun t => do
      let leafOpt ← evalFrom m.digits t row 0 t.num_nodes
      match leafOpt with
      | none => throw "traversal did not terminate"
      | some leaf_id => pure ((leaf_id : ℚ))))
  pure results.flatten

/-- Prediction kinds (gtil.h in src/unnamed/part_007). -/
inductive PredictKind where
  | kPredictDefault | kPredictRaw | kPredictLeafID | kPredictPerTree

deriving DecidableEq, Repr

/-- src/unnamed/part_015, Predict: input type must equal the leaf output
    type; kPredictDefault and kPredictPerTree are fatal ("Not implemented"),
    kPredictRaw runs PredictRaw, kPredictLeafID runs PredictLeaf. -/
def Predict (m : PModel) (input_type : TypeInfo) (rows : List (List FVal))
    (pred_type : PredictKind) : Except String (List ℚ) := do
  if m.leaf_output_type ≠ input_type then
    throw "Incorrect input type passed to GTIL predict()."
  match pred_type with
  | PredictKind.kPredictDefault => throw "Not implemented"
  | PredictKind.kPredictRaw => predictRaw m rows
  | PredictKind.kPredictLeafID => predictLeaf m rows
  | PredictKind.kPredictPerTree => throw "Not implemented"

/-- A default-constructed Tree (all arrays empty, num_nodes = 0), the state
    of the builder's current tree before the first StartTree. -/
def Tree.emptyTree : Tree :=
  { num_nodes := 0, nodes := [], leaf_vector := [], leaf_vector_begin := [],
    leaf_vector_end := [], matching_categories := [],
    matching_categories_offset := [], has_categorical_split := false }

/-- Builder states (src/unnamed/part_011: enum class ModelBuilderState). -/
inductive BState where
  | kExpectTree | kExpectNode | kExpectDetail | kNodeComplete | kModelComplete

deriving DecidableEq, Repr

/-- std::map operator[] assignment: insert or overwrite. -/
def mapAssign (m : List (Int × Nat)) (k : Int) (v : Nat) : List (Int × Nat) :=
  (k, v) :: m.filter (fun p => p.1 ≠ k)

/-- std::map operator[] read as used in EndTree: a missing key is
    default-inserted as 0 and that 0 is read back (the map is cleared right
    afterwards, so this equals lookup-with-default-0). -/
def mapGetD (m : List (Int × Nat)) (k : Int) : Nat :=
  ((m.find? (fun p => p.1 == k)).map Prod.snd).getD 0

/-- src/unnamed/part_011, ModelBuilderImpl state (the fields that the claims
    concern: tree under construction, user-key map, call-order state, and the
    model metadata needed to commit). -/
structure Builder where
  expected_num_tree : Nat
  leaf_output_type : TypeInfo
  num_feature : Nat
  task_type : TaskType
  average_tree_output : Bool
  num_target : Nat
  num_class : List Nat
  leaf_vector_shape : List Nat
  target_id : List Int
  class_id : List Int
  postprocessor : String
  base_scores : List ℚ
  trees : List Tree
  current_tree : Tree
  node_id_map : List (Int × Nat)
  current_node_id : Nat
  current_state : BState

deriving DecidableEq, Repr

/-- src/unnamed/part_011, ModelBuilderImpl::StartTree. -/
def Builder.startTree (b : Builder) : Except String Builder :=
  if b.current_state ≠ BState.kExpectTree then
    Except.error "Unexpected call to StartTree()"
  else
    Except.ok { b with current_tree := Tree.InitTree, current_state := BState.kExpectNode }

/-- The child-id rewriting loop of src/unnamed/part_011 EndTree: every
    non-leaf node's recorded user keys are replaced through the map. -/
def translateChildIds (m : List (Int × Nat)) (t : Tree) : Tree :=
  (List.range t.num_nodes).foldl (fun acc i =>
    if acc.IsLeaf i then acc
    else acc.SetChildren i (mapGetD m (acc.LeftChild i)) (mapGetD m (acc.RightChild i))) t

/-- src/unnamed/part_011, ModelBuilderImpl::EndTree: rewrite child keys to
    internal ids, push the tree, clear the map.  (No validation is performed
    beyond the state check; the code carries a TODO for it.) -/
def Builder.endTree (b : Builder) : Except String Builder :=
  if b.current_state ≠ BState.kExpectNode then
    Except.error "Unexpected call to EndTree()"
  else
    Except.ok { b with
                  trees := b.trees ++ [translateChildIds b.node_id_map b.current_tree],
                  node_id_map := [],
                  current_state := BState.kExpectTree }

/-- src/unnamed/part_011, ModelBuilderImpl::StartNode. -/
def Builder.startNode (b : Builder) (node_key : Int) : Except String Builder :=
  if b.current_state ≠ BState.kExpectNode then
    Except.error "Unexpected call to StartNode()"
  else
    match b.current_tree.AllocNode with
    | Except.error e => Except.error e
    | Except.ok (t, node_id) =>
      Except.ok { b with
                    current_tree := t,
                    current_node_id := node_id,
                    node_id_map := mapAssign b.node_id_map node_key node_id,
                    current_state := BState.kExpectDetail }

/-- src/unnamed/part_011, ModelBuilderImpl::EndNode. -/
def Builder.endNode (b : Builder) : Except String Builder :=
  if b.current_state ≠ BState.kNodeComplete then
    Except.error "Unexpected call to EndNode()"
  else
    Except.ok { b with current_state := BState.kExpectNode }

/-- src/unnamed/part_011, ModelBuilderImpl::NumericalTest: set the split on
    the current node and record the child user keys for later translation. -/
def Builder.numericalTest (b : Builder) (split_index : Int) (threshold : ℚ)
    (default_left : Bool) (cmp : Operator) (left_child_key right_child_key : Int) :
    Except String Builder :=
  if b.current_state ≠ BState.kExpectDetail then
    Except.error "Unexpected call to NumericalTest()"
  else
    match b.current_tree.SetNumericalSplit b.current_node_id (toU32 split_index)
        (FVal.fin threshold) default_left cmp with
    | Except.error e => Except.error e
    | Except.ok t =>
      Except.ok { b with
                    current_tree := t.SetChildren b.current_node_id left_child_key right_child_key,
                    current_state := BState.kNodeComplete }

/-- src/unnamed/part_011, ModelBuilderImpl::CategoricalTest. -/
def Builder.categoricalTest (b : Builder) (split_index : Int) (default_left : Bool)
    (category_list : List Nat) (category_list_right_child : Bool)
    (left_child_key right_child_key : Int) : Except String Builder :=
  if b.current_state ≠ BState.kExpectDetail then
    Except.error "Unexpected call to CategoricalTest()"
  else
    match b.current_tree.SetCategoricalSplit b.current_node_id (toU32 split_index)
        default_left category_list category_list_right_child with
    | Except.error e => Except.error e
    | Except.ok t =>
      Except.ok { b with
                    current_tree := t.SetChildren b.current_node_id left_child_key right_child_key,
                    current_state := BState.kNodeComplete }

/-- src/unnamed/part_011, ModelBuilderImpl::LeafScalar: only the call-order
    state is checked; no leaf_vector_shape check is performed. -/
def Builder.leafScalar (b : Builder) (leaf_value : ℚ) : Except String Builder :=
  if b.current_state ≠ BState.kExpectDetail then
    Except.error "Unexpected call to LeafScalar()"
  else
    Except.ok { b with
                  current_tree := b.current_tree.SetLeaf b.current_node_id leaf_value,
                  current_state := BState.kNodeComplete }

/-- src/unnamed/part_011, ModelBuilderImpl::LeafVector(std::vector<float>):
    fatal on an f64 model; no length check is performed. -/
def Builder.leafVectorF32 (b : Builder) (leaf_vector : List ℚ) : Except String Builder :=
  if b.current_state ≠ BState.kExpectDetail then
    Except.error "Unexpected call to LeafVector()"
  else if b.leaf_output_type = TypeInfo.kFloat64 then
    Except.error "Mismatched type for leaf vector. Expected: float32, Got: float64"
  else
    Except.ok { b with
                  current_tree := b.current_tree.SetLeafVector b.current_node_id leaf_vector,
                  current_state := BState.kNodeComplete }

/-- src/unnamed/part_011, ModelBuilderImpl::LeafVector(std::vector<double>):
    fatal on an f32 model; no length check is performed. -/
def Builder.leafVectorF64 (b : Builder) (leaf_vector : List ℚ) : Except String Builder :=
  if b.current_state ≠ BState.kExpectDetail then
    Except.error "Unexpected call to LeafVector()"
  else if b.leaf_output_type = TypeInfo.kFloat32 then
    Except.error "Mismatched type for leaf vector. Expected: float64, Got: float32"
  else
    Except.ok { b with
                  current_tree := b.current_tree.SetLeafVector b.current_node_id leaf_vector,
                  current_state := BState.kNodeComplete }

/-- src/unnamed/part_011, ModelBuilderImpl::Gain. -/
def Builder.gain (b : Builder) (g : ℚ) : Except String Builder :=
  if b.current_state ≠ BState.kExpectDetail ∧ b.current_state ≠ BState.kNodeComplete then
    Except.error "Unexpected call to Gain()"
  else
    Except.ok { b with current_tree := b.current_tree.SetGain b.current_node_id g }

/-- src/unnamed/part_011, ModelBuilderImpl::DataCount. -/
def Builder.dataCount (b : Builder) (c : Nat) : Except String Builder :=
  if b.current_state ≠ BState.kExpectDetail ∧ b.current_state ≠ BState.kNodeComplete then
    Except.error "Unexpected call to DataCount()"
  else
    Except.ok { b with current_tree := b.current_tree.SetDataCount b.current_node_id c }

/-- src/unnamed/part_011, ModelBuilderImpl::SumHess. -/
def Builder.sumHess (b : Builder) (s : ℚ) : Except String Builder :=
  if b.current_state ≠ BState.kExpectDetail ∧ b.current_state ≠ BState.kNodeComplete then
    Except.error "Unexpected call to SumHess()"
  else
    Except.ok { b with current_tree := b.current_tree.SetSumHess b.current_node_id s }

/-- src/unnamed/part_011, ModelBuilderImpl::CommitModel. -/
def Builder.commitModel (b : Builder) : Except String (Builder × PModel) :=
  if b.current_state ≠ BState.kExpectTree then
    Except.error "Unexpected call to CommitModel()"
  else if b.trees.length ≠ b.expected_num_tree then
    Except.error "Expected a different number of trees"
  else
    Except.ok ({ b with current_state := BState.kModelComplete },
        { num_feature := b.num_feature, num_target := b.num_target,
          num_class := b.num_class, leaf_vector_shape := b.leaf_vector_shape,
          target_id := b.target_id, class_id := b.class_id,
          base_scores := b.base_scores, average_tree_output := b.average_tree_output,
          postprocessor := b.postprocessor, leaf_output_type := b.leaf_output_type,
          trees := b.trees })

/-- src/unnamed/part_011, InitializeModel plus the ModelBuilderImpl
    constructor: type-pair check and metadata validation, then the builder
    starts in kExpectTree with an empty tree list and empty key map.
    The target_id check compares int32 with uint32, so the int is converted
    to unsigned first (a -1 annotation is rejected here); the class_id check
    compares two int32 values. -/
def initializeModel (threshold_type leaf_output_ty : TypeInfo) (num_feature : Nat)
    (task_type : TaskType) (average_tree_output : Bool) (num_target : Nat)
    (num_class : List Nat) (leaf_vector_shape : List Nat) (num_tree : Nat)
    (target_id class_id : List Int) (postprocessor : String) (base_scores : List ℚ) :
    Except String Builder :=
  if ¬ (threshold_type = TypeInfo.kFloat32 ∨ threshold_type = TypeInfo.kFloat64) then
    Except.error "Check failed: threshold_type"
  else if leaf_output_ty ≠ threshold_type then
    Except.error "Check failed: leaf_output_type == threshold_type"
  else if ¬ (List.range num_tree).all (fun i => toU32 (target_id.getD i 0) < num_target) then
    Except.error "Check failed: target_id[i] < num_target"
  else if ¬ (List.range num_tree).all (fun i =>
      class_id.getD i 0 < Int.ofNat (num_class.getD (target_id.getD i 0).toNat 0)) then
    Except.error "Check failed: class_id[i] < num_class[target_id[i]]"
  else if base_scores.length ≠ num_target * num_class.foldl Nat.max 0 then
    Except.error "Check failed: base_scores.size()"
  else
    Except.ok
      { expected_num_tree := num_tree, leaf_output_type := leaf_output_ty,
        num_feature := num_feature, task_type := task_type,
        average_tree_output := average_tree_output, num_target := num_target,
        num_class := num_class, leaf_vector_shape := leaf_vector_shape,
        target_id := target_id, class_id := class_id,
        postprocessor := postprocessor, base_scores := base_scores,
        trees := [], current_tree := Tree.emptyTree,
        node_id_map := [], current_node_id := 0,
        current_state := BState.kExpectTree }

/-! ### Concrete scenario trees (rooted, as produced by the loaders / seed
    scenarios of the spec). -/
/-- Categorical stump of seed scenario 5: feature 0, category_list [2,5,7],
    list_is_right = true, default_left = false; left child 1, right child 2. -/
def catTreeE : Except String Tree := do
  let t ← Tree.InitTree.AddChilds 0
  let t ← t.SetCategoricalSplit 0 0 false [2, 5, 7] true
  pure ((t.SetLeaf 1 10).SetLeaf 2 20)

/-- The categorical stump, extracted. -/
def catTree : Tree := catTreeE.toOption.getD Tree.emptyTree

/-- Numerical stump: feature 0 < 0.0 ? left (1) : right (2), default right. -/
def numStumpE (lv rv : ℚ) : Except String Tree := do
  let t ← Tree.InitTree.AddChilds 0
  let t ← t.SetNumericalSplit 0 0 (FVal.fin 0) false Operator.kLT
  pure ((t.SetLeaf 1 lv).SetLeaf 2 rv)

/-- A numerical stump with leaves 1 and 2. -/
def numStump : Tree := (numStumpE 1 2).toOption.getD Tree.emptyTree

/-- RF stump of seed scenario 3: numerical root, leaf vectors [1,0,0] (left)
    and [0, 0.5, 0.5] (right). -/
def rfStumpE : Except String Tree := do
  let t ← Tree.InitTree.AddChilds 0
  let t ← t.SetNumericalSplit 0 0 (FVal.fin 0) false Operator.kLT
  pure ((t.SetLeafVector 1 [1, 0, 0]).SetLeafVector 2 [0, 1/2, 1/2])

/-- The RF stump, extracted. -/
def rfStump : Tree := rfStumpE.toOption.getD Tree.emptyTree

/-- The 2-tree averaged random-forest model of seed scenario 3 / claim C1:
    base_scores [100, 200, 300], (target_id, class_id) = (0, -1),
    average_tree_output = true. -/
def rfModel : PModel :=
  { num_feature := 1, num_target := 1, num_class := [3],
    leaf_vector_shape := [1, 3], target_id := [0, 0], class_id := [-1, -1],
    base_scores := [100, 200, 300], average_tree_output := true,
    postprocessor := "identity_multiclass", leaf_output_type := TypeInfo.kFloat32,
    trees := [rfStump, rfStump] }

/-- The cyclic one-node tree used to probe the traversal loop: node 0 is a
    numerical test whose both children are node 0 itself. -/
def cycTreeE : Except String Tree := do
  let t ← Tree.InitTree.SetNumericalSplit 0 0 (FVal.fin 0) false Operator.kLT
  pure (t.SetChildren 0 0 0)

/-- The cyclic tree, extracted. -/
def cycTree : Tree := cycTreeE.toOption.getD Tree.emptyTree

/-! ### Claim C4: categorical matching -/
/-- The matching criterion exactly as the claim words it: f ≥ 0,
    |f| ≤ min(u32 max, 2^MANT_DIG), and the u32 cast of f is a member. -/
def specCategoryMatch (digits : Nat) (f : ℚ) (cats : List Nat) : Bool :=
  decide (0 ≤ f) && decide (|f| ≤ maxRepresentableInt digits) && cats.contains (truncToU32 f)

/-! ### Claim C5: traversal termination -/
/-- Well-formed forward-linked tree: every internal node's children have
    strictly larger ids below num_nodes, and internal non-categorical nodes
    carry a recognized comparison operator. -/
def ForwardTree (t : Tree) : Prop :=
  ∀ nid, nid < t.num_nodes → t.IsLeaf nid = false →
    ((nid : Int) < t.LeftChild nid ∧ t.LeftChild nid < (t.num_nodes : Int) ∧
     (nid : Int) < t.RightChild nid ∧ t.RightChild nid < (t.num_nodes : Int) ∧
     (t.NodeTypeAt nid ≠ TreeNodeType.kCategoricalTestNode →
        t.ComparisonOp nid ≠ Operator.kNone))

/-! ### Builder call traces -/
/-- One call of the ModelBuilder interface (src/unnamed/part_008
    model_builder.h), to reason about arbitrary call sequences. -/
inductive BuilderOp where
  | startTree : BuilderOp
  | endTree : BuilderOp
  | startNode (key : Int) : BuilderOp
  | endNode : BuilderOp
  | numericalTest (split_index : Int) (threshold : ℚ) (default_left : Bool)
      (cmp : Operator) (left_key right_key : Int) : BuilderOp
  | categoricalTest (split_index : Int) (default_left : Bool) (cats : List Nat)
      (clrc : Bool) (left_key right_key : Int) : BuilderOp
  | leafScalar (v : ℚ) : BuilderOp
  | leafVectorF32 (vs : List ℚ) : BuilderOp
  | leafVectorF64 (vs : List ℚ) : BuilderOp
  | gain (g : ℚ) : BuilderOp
  | dataCount (c : Nat) : BuilderOp
  | sumHess (s : ℚ) : BuilderOp

deriving DecidableEq, Repr

/-- Dispatch one builder call. -/
def runOp (b : Builder) : BuilderOp → Except String Builder
  | BuilderOp.startTree => b.startTree
  | BuilderOp.endTree => b.endTree
  | BuilderOp.startNode k => b.startNode k
  | BuilderOp.endNode => b.endNode
  | BuilderOp.numericalTest si th dl cmp lk rk => b.numericalTest si th dl cmp lk rk
  | BuilderOp.categoricalTest si dl cats clrc lk rk => b.categoricalTest si dl cats clrc lk rk
  | BuilderOp.leafScalar v => b.leafScalar v
  | BuilderOp.leafVectorF32 vs => b.leafVectorF32 vs
  | BuilderOp.leafVectorF64 vs => b.leafVectorF64 vs
  | BuilderOp.gain g => b.gain g
  | BuilderOp.dataCount c => b.dataCount c
  | BuilderOp.sumHess s => b.sumHess s

/-- Run a sequence of builder calls, stopping at the first fatal error. -/
def runOps (b : Builder) : List BuilderOp → Except String Builder
  | [] => Except.ok b
  | op :: ops =>
    match runOp b op with
    | Except.error e => Except.error e
    | Except.ok b1 => runOps b1 ops

/-- Ops that stay inside one tree (neither StartTree nor EndTree). -/
def nodeScoped : BuilderOp → Bool
  | BuilderOp.startTree => false
  | BuilderOp.endTree => false
  | _ => true

/-- Number of StartNode calls in a trace. -/
def countStartNode (ops : List BuilderOp) : Nat :=
  ops.countP (fun op => match op with | BuilderOp.startNode _ => true | _ => false)

/-- The builder for the orphaned-nodes test of tests/cpp/test_model_builder.cc:
    BinaryClf, 1 feature, 1 tree, 1 class, leaf shape [1,1]. -/
def orphanBuilder : Except String Builder :=
  initializeModel TypeInfo.kFloat32 TypeInfo.kFloat32 1 TaskType.kBinaryClf false
    1 [1] [1, 1] 1 [0] [0] "softmax" [0]

/-- The call trace of the orphaned-nodes test: two leaf nodes are started and
    never wired to the root. -/
def orphanOps : List BuilderOp :=
  [BuilderOp.startTree, BuilderOp.startNode 0, BuilderOp.leafScalar 0, BuilderOp.endNode,
   BuilderOp.startNode 1, BuilderOp.leafScalar 1, BuilderOp.endNode, BuilderOp.endTree]

/-- The orphan scenario run end to end, commit included. -/
def orphanRun : Except String (Builder × PModel) :=
  match orphanBuilder with
  | Except.error e => Except.error e
  | Except.ok b0 =>
    match runOps b0 orphanOps with
    | Except.error e => Except.error e
    | Except.ok b => b.commitModel

/-- The builder for the leaf-shape test of tests/cpp/test_model_builder.cc
    (InvalidState): MultiClf, leaf_vector_shape [1,2], one tree with
    class_id = -1. -/
def shapeBuilder : Except String Builder :=
  initializeModel TypeInfo.kFloat32 TypeInfo.kFloat32 1 TaskType.kMultiClf false
    1 [2] [1, 2] 1 [0] [-1] "identity_multiclass" [0, 0]

/-- Invariant: every user key registered so far maps to a positive internal
    id, and inside a tree scope the current tree has at least its root. -/
def BuilderInv (b : Builder) : Prop :=
  (∀ p ∈ b.node_id_map, 1 ≤ p.2)
  ∧ ((b.current_state = BState.kExpectNode ∨ b.current_state = BState.kExpectDetail ∨
        b.current_state = BState.kNodeComplete) → 1 ≤ b.current_tree.num_nodes)

/-- A throwaway builder value used only to extract ok-results. -/
def dummyBuilder : Builder :=
  { expected_num_tree := 0, leaf_output_type := TypeInfo.kFloat32, num_feature := 0,
    task_type := TaskType.kRegressor, average_tree_output := false, num_target := 1,
    num_class := [1], leaf_vector_shape := [1, 1], target_id := [], class_id := [],
    postprocessor := "identity", base_scores := [], trees := [],
    current_tree := Tree.emptyTree, node_id_map := [], current_node_id := 0,
    current_state := BState.kExpectTree }

/-- The freshly initialized orphan-test builder, extracted. -/
def c10b0 : Builder := orphanBuilder.toOption.getD dummyBuilder

/-- The node-scoped part of the orphan-test trace (two started nodes). -/
def c10inner : List BuilderOp :=
  [BuilderOp.startNode 0, BuilderOp.leafScalar 0, BuilderOp.endNode,
   BuilderOp.startNode 1, BuilderOp.leafScalar 1, BuilderOp.endNode]

/-- The builder after running one full tree scope of the orphan-test trace. -/
def c10bf : Builder :=
  (runOps c10b0 (BuilderOp.startTree :: (c10inner ++ [BuilderOp.endTree]))).toOption.getD
    dummyBuilder

/-! ### Claim C9: category lists of builder-constructed trees -/
/-- Every node's category list is sorted ascending. -/
def SortedTree (t : Tree) : Prop :=
  ∀ nid, (t.MatchingCategoriesAt nid).Sorted (· ≤ ·)

/-- Offset-array well-formedness for the category pool: one offset per node
    plus one, all offsets inside the pool, and the last offset at the tail. -/
def CatOffInv (t : Tree) : Prop :=
  t.matching_categories_offset.length = t.num_nodes + 1
  ∧ (∀ a ∈ t.matching_categories_offset, a ≤ t.matching_categories.length)
  ∧ t.matching_categories_offset.getLastD 0 = t.matching_categories.length

/-- The category slice of a pool at the offsets of one node (the body of the
    MatchingCategories getter, as a pure list function). -/
def catSlice (pool off : List Nat) (j : Nat) : List Nat :=
  if off.getD j 0 ≥ pool.length ∨ off.getD (j + 1) 0 > pool.length then []
  else (pool.drop (off.getD j 0)).take (off.getD (j + 1) 0 - off.getD j 0)

/-- C9 builder invariant: committed trees and the current tree have sorted
    category lists; inside a tree scope the offsets are well-formed; right
    after StartNode the current node's begin offset sits at the pool tail. -/
def CatInvB (b : Builder) : Prop :=
  (∀ t ∈ b.trees, SortedTree t)
  ∧ SortedTree b.current_tree
  ∧ ((b.current_state = BState.kExpectNode ∨ b.current_state = BState.kExpectDetail ∨
        b.current_state = BState.kNodeComplete) → CatOffInv b.current_tree)
  ∧ (b.current_state = BState.kExpectDetail →
      b.current_tree.matching_categories_offset.getD b.current_node_id 0 =
        b.current_tree.matching_categories.length)

/-- The builder for the C9 counterexample. -/
def c9Builder : Except String Builder :=
  initializeModel TypeInfo.kFloat32 TypeInfo.kFloat32 1 TaskType.kBinaryClf false
    1 [1] [1, 1] 1 [0] [0] "identity" [0]

/-- The C9 counterexample trace: a categorical root whose category list is
    given as [5,5,2]. -/
def c9ops : List BuilderOp :=
  [BuilderOp.startTree, BuilderOp.startNode 0,
   BuilderOp.categoricalTest 0 false [5, 5, 2] true 1 2, BuilderOp.endNode,
   BuilderOp.startNode 1, BuilderOp.leafScalar 0, BuilderOp.endNode,
   BuilderOp.startNode 2, BuilderOp.leafScalar 1, BuilderOp.endNode,
   BuilderOp.endTree]

/-! ### Serializer (src/src/serializer.cc)

`Model::SerializeToPyBuffer`, `Model::DeserializeFromPyBuffer`,
`Model::SerializeToStream` and `Model::DeserializeFromStream`
(src/src/serializer.cc lines 241-271) all delegate to the same
`Serializer` / `Deserializer` class pair, differing only in the transport
mixin.  The mixin headers (serializer_mixins.h) and version.h are not part
of src/, so the transport layer is modelled from the spec: each
`SerializeScalar` / `SerializeArray` / `SerializeString` call emits exactly
one typed frame, each `Deserialize*` call consumes one frame of the matching
type (failing otherwise), `SkipOptionalField` consumes exactly one frame,
and the current library version `TREELITE_VER_MAJOR/MINOR/PATCH` is an
arbitrary parameter `cur`.  The field sequence below is transcribed from
serializer.cc. -/
/-- One serialized field, tagged with its element type
    (models one PyBufferFrame / one length-prefixed stream record). -/
inductive SFrame where
  | i32 : Int → SFrame
  | u32 : Nat → SFrame
  | u64 : Nat → SFrame
  | f32 : ℚ → SFrame
  | boolv : Bool → SFrame
  | strv : String → SFrame
  | tinfo : TypeInfo → SFrame
  | ttype : TaskType → SFrame
  | arr_i32 : List Int → SFrame
  | arr_u32 : List Nat → SFrame
  | arr_u64 : List Nat → SFrame
  | arr_f64 : List ℚ → SFrame
  | arr_flt : List FVal → SFrame
  | arr_boolv : List Bool → SFrame
  | arr_ntype : List TreeNodeType → SFrame
  | arr_op : List Operator → SFrame
  | optSlot : SFrame

deriving DecidableEq, Repr

/-- The serialized form of one Tree<ThresholdType, LeafOutputType>
    (the fields written by Serializer::SerializeTree, in order). -/
structure STree where
  num_nodes : Int
  has_categorical_split : Bool
  node_type : List TreeNodeType
  cleft : List Int
  cright : List Int
  split_index : List Int
  default_left : List Bool
  leaf_value : List FVal
  threshold : List FVal
  cmp : List Operator
  category_list_right_child : List Bool
  leaf_vector : List FVal
  leaf_vector_begin : List Nat
  leaf_vector_end : List Nat
  category_list : List Nat
  category_list_begin : List Nat
  category_list_end : List Nat
  data_count : List Nat
  data_count_present : List Bool
  sum_hess : List ℚ
  sum_hess_present : List Bool
  gain : List ℚ
  gain_present : List Bool
  num_opt_field_per_tree : Int
  num_opt_field_per_node : Int

deriving DecidableEq, Repr

/-- The serialized form of a Model (the fields written by
    Serializer::SerializeHeader and SerializeTrees, in order). -/
structure SModel where
  major_ver : Int
  minor_ver : Int
  patch_ver : Int
  threshold_type : TypeInfo
  leaf_output_type : TypeInfo
  num_tree : Nat
  num_feature : Int
  task_type : TaskType
  average_tree_output : Bool
  num_target : Nat
  num_class : List Nat
  leaf_vector_shape : List Nat
  target_id : List Int
  class_id : List Int
  postprocessor : String
  sigmoid_alpha : ℚ
  ratio_c : ℚ
  base_scores : List ℚ
  attributes : String
  num_opt_field_per_model : Int
  trees : List STree

deriving DecidableEq, Repr

/-- Serializer::SerializeTree, generalized over the extension-field counts
    written into slots 2 and 3 (a checkpoint produced by the present code
    always has kT = kN = 0; nonzero counts model a checkpoint written by a
    later minor version, whose extra fields appear as optSlot frames). -/
def serializeTreeGen (kT kN : Nat) (t : STree) : List SFrame :=
  [SFrame.i32 t.num_nodes,
   SFrame.boolv t.has_categorical_split,
   SFrame.arr_ntype t.node_type,
   SFrame.arr_i32 t.cleft,
   SFrame.arr_i32 t.cright,
   SFrame.arr_i32 t.split_index,
   SFrame.arr_boolv t.default_left,
   SFrame.arr_flt t.leaf_value,
   SFrame.arr_flt t.threshold,
   SFrame.arr_op t.cmp,
   SFrame.arr_boolv t.category_list_right_child,
   SFrame.arr_flt t.leaf_vector,
   SFrame.arr_u64 t.leaf_vector_begin,
   SFrame.arr_u64 t.leaf_vector_end,
   SFrame.arr_u32 t.category_list,
   SFrame.arr_u64 t.category_list_begin,
   SFrame.arr_u64 t.category_list_end,
   SFrame.arr_u64 t.data_count,
   SFrame.arr_boolv t.data_count_present,
   SFrame.arr_f64 t.sum_hess,
   SFrame.arr_boolv t.sum_hess_present,
   SFrame.arr_f64 t.gain,
   SFrame.arr_boolv t.gain_present,
   SFrame.i32 (Int.ofNat kT)]
  ++ List.replicate kT SFrame.optSlot
  ++ [SFrame.i32 (Int.ofNat kN)]
  ++ List.replicate kN SFrame.optSlot

/-- Serializer::SerializeTrees: each tree in order. -/
def serializeTreeListGen (kT kN : Nat) : List STree → List SFrame
  | [] => []
  | t :: ts => serializeTreeGen kT kN t ++ serializeTreeListGen kT kN ts

/-- Serializer::SerializeHeader, generalized over the version triple stamped
    into the header and the per-model extension count of slot 1 (the present
    code stamps cur and writes kM = 0).  num_tree_ is set to
    GetNumTree() = trees.length before being written. -/
def serializeHeaderGen (ver : Int × Int × Int) (kM : Nat) (m : SModel) : List SFrame :=
  [SFrame.i32 ver.1, SFrame.i32 ver.2.1, SFrame.i32 ver.2.2,
   SFrame.tinfo m.threshold_type, SFrame.tinfo m.leaf_output_type,
   SFrame.u64 m.trees.length,
   SFrame.i32 m.num_feature,
   SFrame.ttype m.task_type,
   SFrame.boolv m.average_tree_output,
   SFrame.u32 m.num_target,
   SFrame.arr_u32 m.num_class,
   SFrame.arr_u32 m.leaf_vector_shape,
   SFrame.arr_i32 m.target_id,
   SFrame.arr_i32 m.class_id,
   SFrame.strv m.postprocessor,
   SFrame.f32 m.sigmoid_alpha,
   SFrame.f32 m.ratio_c,
   SFrame.arr_f64 m.base_scores,
   SFrame.strv m.attributes,
   SFrame.i32 (Int.ofNat kM)]
  ++ List.replicate kM SFrame.optSlot

/-- A full serialized checkpoint with arbitrary stamped version and
    extension-field counts (models input produced by version ver). -/
def serializeModelGen (ver : Int × Int × Int) (kM kT kN : Nat) (m : SModel) : List SFrame :=
  serializeHeaderGen ver kM m ++ serializeTreeListGen kT kN m.trees

/-- Model::SerializeToPyBuffer / SerializeToStream as run by the present
    code at library version cur: version stamped cur, all extension
    counts 0. -/
def serializeModel (cur : Int × Int × Int) (m : SModel) : List SFrame :=
  serializeModelGen cur 0 0 0 m

/-- Read one int32 scalar frame. -/
def readI32 : List SFrame → Except String (Int × List SFrame)
  | SFrame.i32 v :: fs => Except.ok (v, fs)
  | _ => Except.error "Invalid frame: expected int32 scalar"

/-- Read one uint32 scalar frame. -/
def readU32 : List SFrame → Except String (Nat × List SFrame)
  | SFrame.u32 v :: fs => Except.ok (v, fs)
  | _ => Except.error "Invalid frame: expected uint32 scalar"

/-- Read one uint64 scalar frame. -/
def readU64 : List SFrame → Except String (Nat × List SFrame)
  | SFrame.u64 v :: fs => Except.ok (v, fs)
  | _ => Except.error "Invalid frame: expected uint64 scalar"

/-- Read one float scalar frame. -/
def readF32 : List SFrame → Except String (ℚ × List SFrame)
  | SFrame.f32 v :: fs => Except.ok (v, fs)
  | _ => Except.error "Invalid frame: expected float scalar"

/-- Read one bool scalar frame. -/
def readBool : List SFrame → Except String (Bool × List SFrame)
  | SFrame.boolv v :: fs => Except.ok (v, fs)
  | _ => Except.error "Invalid frame: expected bool scalar"

/-- Read one string frame. -/
def readStr : List SFrame → Except String (String × List SFrame)
  | SFrame.strv v :: fs => Except.ok (v, fs)
  | _ => Except.error "Invalid frame: expected string"

/-- Read one TypeInfo scalar frame. -/
def readTInfo : List SFrame → Except String (TypeInfo × List SFrame)
  | SFrame.tinfo v :: fs => Except.ok (v, fs)
  | _ => Except.error "Invalid frame: expected TypeInfo scalar"

/-- Read one TaskType scalar frame. -/
def readTType : List SFrame → Except String (TaskType × List SFrame)
  | SFrame.ttype v :: fs => Except.ok (v, fs)
  | _ => Except.error "Invalid frame: expected TaskType scalar"

/-- Read one int32 array frame. -/
def readArrI32 : List SFrame → Except String (List Int × List SFrame)
  | SFrame.arr_i32 v :: fs => Except.ok (v, fs)
  | _ => Except.error "Invalid frame: expected int32 array"

/-- Read one uint32 array frame. -/
def readArrU32 : List SFrame → Except String (List Nat × List SFrame)
  | SFrame.arr_u32 v :: fs => Except.ok (v, fs)
  | _ => Except.error "Invalid frame: expected uint32 array"

/-- Read one uint64 array frame. -/
def readArrU64 : List SFrame → Except String (List Nat × List SFrame)
  | SFrame.arr_u64 v :: fs => Except.ok (v, fs)
  | _ => Except.error "Invalid frame: expected uint64 array"

/-- Read one float64 array frame. -/
def readArrF64 : List SFrame → Except String (List ℚ × List SFrame)
  | SFrame.arr_f64 v :: fs => Except.ok (v, fs)
  | _ => Except.error "Invalid frame: expected float64 array"

/-- Read one threshold/leaf-value array frame. -/
def readArrFlt : List SFrame → Except String (List FVal × List SFrame)
  | SFrame.arr_flt v :: fs => Except.ok (v, fs)
  | _ => Except.error "Invalid frame: expected float array"

/-- Read one bool array frame. -/
def readArrBool : List SFrame → Except String (List Bool × List SFrame)
  | SFrame.arr_boolv v :: fs => Except.ok (v, fs)
  | _ => Except.error "Invalid frame: expected bool array"

/-- Read one TreeNodeType array frame. -/
def readArrNType : List SFrame → Except String (List TreeNodeType × List SFrame)
  | SFrame.arr_ntype v :: fs => Except.ok (v, fs)
  | _ => Except.error "Invalid frame: expected node type array"

/-- Read one Operator array frame. -/
def readArrOp : List SFrame → Except String (List Operator × List SFrame)
  | SFrame.arr_op v :: fs => Except.ok (v, fs)
  | _ => Except.error "Invalid frame: expected operator array"

/-- The skip loop over an extension slot:
    for (i = 0; i < count; ++i) SkipOptionalField().
    A negative count runs zero iterations (Int.toNat at the call site). -/
def skipFields : Nat → List SFrame → Except String (List SFrame)
  | 0, fs => Except.ok fs
  | n + 1, SFrame.optSlot :: fs => skipFields n fs
  | _ + 1, _ => Except.error "Invalid frame: expected optional field"

/-- Read the num_opt_field count of an extension slot and skip that many
    optional fields (serializer.cc lines 170-175, 220-232). -/
def readOptCount (fs : List SFrame) : Except String (Int × List SFrame) :=
  match readI32 fs with
  | Except.error e => Except.error e
  | Except.ok (k, fs1) =>
    match skipFields k.toNat fs1 with
    | Except.error e => Except.error e
    | Except.ok fs2 => Except.ok (k, fs2)

/-- Deserializer::DeserializeTree (serializer.cc lines 192-233):
    read every tree field in serialization order, then process extension
    slots 2 and 3, keeping the counts that were read. -/
def deserializeTree (fs0 : List SFrame) : Except String (STree × List SFrame) := do
  let (num_nodes, fs) ← readI32 fs0
  let (has_categorical_split, fs) ← readBool fs
  let (node_type, fs) ← readArrNType fs
  let (cleft, fs) ← readArrI32 fs
  let (cright, fs) ← readArrI32 fs
  let (split_index, fs) ← readArrI32 fs
  let (default_left, fs) ← readArrBool fs
  let (leaf_value, fs) ← readArrFlt fs
  let (threshold, fs) ← readArrFlt fs
  let (cmp, fs) ← readArrOp fs
  let (category_list_right_child, fs) ← readArrBool fs
  let (leaf_vector, fs) ← readArrFlt fs
  let (leaf_vector_begin, fs) ← readArrU64 fs
  let (leaf_vector_end, fs) ← readArrU64 fs
  let (category_list, fs) ← readArrU32 fs
  let (category_list_begin, fs) ← readArrU64 fs
  let (category_list_end, fs) ← readArrU64 fs
  let (data_count, fs) ← readArrU64 fs
  let (data_count_present, fs) ← readArrBool fs
  let (sum_hess, fs) ← readArrF64 fs
  let (sum_hess_present, fs) ← readArrBool fs
  let (gain, fs) ← readArrF64 fs
  let (gain_present, fs) ← readArrBool fs
  let (num_opt_field_per_tree, fs) ← readOptCount fs
  let (num_opt_field_per_node, fs) ← readOptCount fs
  Except.ok
    ({ num_nodes := num_nodes,
       has_categorical_split := has_categorical_split,
       node_type := node_type,
       cleft := cleft,
       cright := cright,
       split_index := split_index,
       default_left := default_left,
       leaf_value := leaf_value,
       threshold := threshold,
       cmp := cmp,
       category_list_right_child := category_list_right_child,
       leaf_vector := leaf_vector,
       leaf_vector_begin := leaf_vector_begin,
       leaf_vector_end := leaf_vector_end,
       category_list := category_list,
       category_list_begin := category_list_begin,
       category_list_end := category_list_end,
       data_count := data_count,
       data_count_present := data_count_present,
       sum_hess := sum_hess,
       sum_hess_present := sum_hess_present,
       gain := gain,
       gain_present := gain_present,
       num_opt_field_per_tree := num_opt_field_per_tree,
       num_opt_field_per_node := num_opt_field_per_node }, fs)

/-- Deserializer::DeserializeTrees: read num_tree_ trees in sequence. -/
def deserializeTrees : Nat → List SFrame → Except String (List STree × List SFrame)
  | 0, fs => Except.ok ([], fs)
  | n + 1, fs =>
    match deserializeTree fs with
    | Except.error e => Except.error e
    | Except.ok (t, fs1) =>
      match deserializeTrees n fs1 with
      | Except.error e => Except.error e
      | Except.ok (ts, fs2) => Except.ok (t :: ts, fs2)

/-- Model::DeserializeFromPyBuffer / DeserializeFromStream at current
    library version cur: DeserializeHeaderAndCreateModel (version gate,
    Model::Create type checks, header fields, extension slot 1) followed by
    DeserializeTrees.  Returns the model, whether the newer-minor warning
    was emitted, and the unconsumed frames. -/
def deserializeModel (cur : Int × Int × Int) (fs0 : List SFrame) :
    Except String (SModel × Bool × List SFrame) := do
  let (major_ver, fs) ← readI32 fs0
  let (minor_ver, fs) ← readI32 fs
  let (patch_ver, fs) ← readI32 fs
  if major_ver ≠ cur.1 ∧ ¬(major_ver = 3 ∧ minor_ver = 9) then
    Except.error "Cannot load model from a different major Treelite version or a version before 3.9.0."
  else
    let warned : Bool := decide (major_ver = cur.1 ∧ cur.2.1 < minor_ver)
    let (threshold_type, fs) ← readTInfo fs
    let (leaf_output_type, fs) ← readTInfo fs
    if threshold_type = TypeInfo.kFloat32 ∨ threshold_type = TypeInfo.kFloat64 then
      if leaf_output_type = TypeInfo.kUInt32 ∨ leaf_output_type = threshold_type then
        let (num_tree, fs) ← readU64 fs
        let (num_feature, fs) ← readI32 fs
        let (task_type, fs) ← readTType fs
        let (average_tree_output, fs) ← readBool fs
        let (num_target, fs) ← readU32 fs
        let (num_class, fs) ← readArrU32 fs
        let (leaf_vector_shape, fs) ← readArrU32 fs
        let (target_id, fs) ← readArrI32 fs
        let (class_id, fs) ← readArrI32 fs
        let (postprocessor, fs) ← readStr fs
        let (sigmoid_alpha, fs) ← readF32 fs
        let (ratio_c, fs) ← readF32 fs
        let (base_scores, fs) ← readArrF64 fs
        let (attributes, fs) ← readStr fs
        let (num_opt_field_per_model, fs) ← readOptCount fs
        let (trees, fs) ← deserializeTrees num_tree fs
        Except.ok
          ({ major_ver := major_ver,
             minor_ver := minor_ver,
             patch_ver := patch_ver,
             threshold_type := threshold_type,
             leaf_output_type := leaf_output_type,
             num_tree := num_tree,
             num_feature := num_feature,
             task_type := task_type,
             average_tree_output := average_tree_output,
             num_target := num_target,
             num_class := num_class,
             leaf_vector_shape := leaf_vector_shape,
             target_id := target_id,
             class_id := class_id,
             postprocessor := postprocessor,
             sigmoid_alpha := sigmoid_alpha,
             ratio_c := ratio_c,
             base_scores := base_scores,
             attributes := attributes,
             num_opt_field_per_model := num_opt_field_per_model,
             trees := trees }, warned, fs)
      else
        Except.error "Check failed: leaf_output_type == TypeInfo::kUInt32 || leaf_output_type == threshold_type"
    else
      Except.error "Check failed: threshold_type == TypeInfo::kFloat32 || threshold_type == TypeInfo::kFloat64"

/-- The tree after a serialization round trip: only the extension-slot
    counts read from the stream replace the in-memory ones. -/
def stampTreeCounts (kT kN : Nat) (t : STree) : STree :=
  { t with num_opt_field_per_tree := Int.ofNat kT,
           num_opt_field_per_node := Int.ofNat kN }

/-- The model reconstructed from a checkpoint stamped ver with extension
    counts kM/kT/kN: identical to the original except for the stamped
    version triple, the recomputed num_tree, and the recorded extension
    counts. -/
def stampModel (ver : Int × Int × Int) (kM kT kN : Nat) (m : SModel) : SModel :=
  { m with major_ver := ver.1,
           minor_ver := ver.2.1,
           patch_ver := ver.2.2,
           num_tree := m.trees.length,
           num_opt_field_per_model := Int.ofNat kM,
           trees := m.trees.map (stampTreeCounts kT kN) }

/-- The dump-visible content of a serialized tree: every field except the
    extension-slot bookkeeping counts.  Modelled from the spec: DumpAsJSON
    prints the model contents and never the version triple or the
    num_opt_field counters. -/
def STree.dumpView (t : STree) :=
  (t.num_nodes, t.has_categorical_split, t.node_type, t.cleft, t.cright,
   t.split_index, t.default_left, t.leaf_value, t.threshold, t.cmp,
   t.category_list_right_child, t.leaf_vector, t.leaf_vector_begin,
   t.leaf_vector_end, t.category_list, t.category_list_begin,
   t.category_list_end, t.data_count, t.data_count_present, t.sum_hess,
   t.sum_hess_present, t.gain, t.gain_present)

/-- The dump-visible content of a serialized model: every field except the
    version triple, the derived num_tree counter and the extension-slot
    count, with trees projected through STree.dumpView. -/
def SModel.dumpView (m : SModel) :=
  (m.threshold_type, m.leaf_output_type, m.num_feature, m.task_type,
   m.average_tree_output, m.num_target, m.num_class, m.leaf_vector_shape,
   m.target_id, m.class_id, m.postprocessor, m.sigmoid_alpha, m.ratio_c,
   m.base_scores, m.attributes, m.trees.map STree.dumpView)

/-- A concrete one-tree serialized model used to instantiate the
    round-trip and version-gate theorems. -/
def stSample : STree :=
  { num_nodes := 3,
    has_categorical_split := false,
    node_type := [TreeNodeType.kNumericalTestNode, TreeNodeType.kLeafNode,
                  TreeNodeType.kLeafNode],
    cleft := [1, -1, -1],
    cright := [2, -1, -1],
    split_index := [0, -1, -1],
    default_left := [true, false, false],
    leaf_value := [FVal.fin 0, FVal.fin (-1), FVal.fin 1],
    threshold := [FVal.fin 0, FVal.nan, FVal.nan],
    cmp := [Operator.kLT, Operator.kNone, Operator.kNone],
    category_list_right_child := [false, false, false],
    leaf_vector := [],
    leaf_vector_begin := [0, 0, 0],
    leaf_vector_end := [0, 0, 0],
    category_list := [],
    category_list_begin := [0, 0, 0],
    category_list_end := [0, 0, 0],
    data_count := [],
    data_count_present := [],
    sum_hess := [],
    sum_hess_present := [],
    gain := [],
    gain_present := [],
    num_opt_field_per_tree := 0,
    num_opt_field_per_node := 0 }

/-- A concrete serialized model (float32 thresholds and leaves). -/
def smSample : SModel :=
  { major_ver := 4,
    minor_ver := 0,
    patch_ver := 0,
    threshold_type := TypeInfo.kFloat32,
    leaf_output_type := TypeInfo.kFloat32,
    num_tree := 1,
    num_feature := 1,
    task_type := TaskType.kRegressor,
    average_tree_output := false,
    num_target := 1,
    num_class := [1],
    leaf_vector_shape := [1, 1],
    target_id := [0],
    class_id := [0],
    postprocessor := "identity",
    sigmoid_alpha := 1,
    ratio_c := 1,
    base_scores := [0],
    attributes := "",
    num_opt_field_per_model := 0,
    trees := [stSample] }

/-- The C9 counterexample builder, extracted. -/
def c9b0 : Builder := c9Builder.toOption.getD dummyBuilder

/-- The builder after the C9 counterexample trace. -/
def c9bf : Builder := (runOps c9b0 c9ops).toOption.getD dummyBuilder

/-! ### Theorems -/

/-- C4 counterexample: the claim asserts that input 5.5 goes left, but the
    code truncates 5.5 to the uint32 value 5, which is in the category list
    [2,5,7], so the traversal goes to the right child (node 2), not the left
    child (node 1).  (Likewise NaN and 2.9999 go right, refuting the claim's
    example list.) -/
theorem claim4_cex :
    evalFrom 24 catTree [FVal.fin (11/2)] 0 catTree.num_nodes = Except.ok (some 2)
    ∧ catTree.LeftChild 0 = 1 ∧ catTree.RightChild 0 = 2
    ∧ evalFrom 24 catTree [FVal.fin (11/2)] 0 catTree.num_nodes ≠ Except.ok (some 1) := by
  refine ⟨by with_unfolding_all decide, by with_unfolding_all decide, by with_unfolding_all decide, by with_unfolding_all decide⟩

/-- C4 amended: the matching criterion is exactly as the claim states it
    (f ≥ 0, |f| ≤ min(u32 max, 2^MANT_DIG), u32 cast a member of the list),
    with matched routed right iff list_is_right_child; but the concrete
    routings are: 5.0 → right, 3.0 → left, -1.0 → left, 5.5 → right
    (truncates to 5 ∈ list), 2.9999 → right (truncates to 2 ∈ list),
    NaN → right (default child is the right child since default_left=false). -/
theorem claim4_amended :
    (∀ (digits : Nat) (f : ℚ) (cats : List Nat) (clrc : Bool) (lc rc : Int),
      NextNodeCategorical digits f cats clrc lc rc =
        if specCategoryMatch digits f cats then (if clrc then rc else lc)
        else (if clrc then lc else rc))
    ∧ evalFrom 24 catTree [FVal.fin 5] 0 catTree.num_nodes = Except.ok (some 2)
    ∧ evalFrom 24 catTree [FVal.fin 3] 0 catTree.num_nodes = Except.ok (some 1)
    ∧ evalFrom 24 catTree [FVal.fin (-1)] 0 catTree.num_nodes = Except.ok (some 1)
    ∧ evalFrom 24 catTree [FVal.fin (11/2)] 0 catTree.num_nodes = Except.ok (some 2)
    ∧ evalFrom 24 catTree [FVal.fin (29999/10000)] 0 catTree.num_nodes = Except.ok (some 2)
    ∧ evalFrom 24 catTree [FVal.nan] 0 catTree.num_nodes = Except.ok (some 2) := by
  refine ⟨?_, by with_unfolding_all decide, by with_unfolding_all decide, by with_unfolding_all decide, by with_unfolding_all decide, by with_unfolding_all decide, by with_unfolding_all decide⟩
  intro digits f cats clrc lc rc
  have hmatch : (if f < 0 ∨ |f| > maxRepresentableInt digits then false
      else cats.contains (truncToU32 f)) = specCategoryMatch digits f cats := by
    unfold specCategoryMatch
    by_cases h0 : f < 0 ∨ |f| > maxRepresentableInt digits
    · rcases h0 with h | h
      · simp [h, decide_eq_false (not_le.mpr h)]
      · simp [h, decide_eq_false (not_le.mpr h)]
    · have hni := h0
      push_neg at h0
      simp [hni, h0.1, h0.2]
  simp only [NextNodeCategorical]
  rw [hmatch]
  cases hs : specCategoryMatch digits f cats <;> cases clrc <;> simp [hs]

theorem fcmp_isSome (op : Operator) (x : ℚ) (th : FVal) (h : op ≠ Operator.kNone) :
    ∃ b, fcmp op x th = some b := by
  cases th <;> cases op <;> simp [fcmp] at h ⊢

theorem evalStep_forward {t : Tree} (h : ForwardTree t) (digits : Nat) (row : List FVal)
    {nid : Nat} (h1 : nid < t.num_nodes) (h2 : t.IsLeaf nid = false) :
    ∃ nxt : Int, evalStep digits t row nid = Except.ok nxt ∧
      (nid : Int) < nxt ∧ nxt < (t.num_nodes : Int) := by
  obtain ⟨hl1, hl2, hr1, hr2, hop⟩ := h nid h1 h2
  unfold evalStep
  cases hrow : row.getD (t.SplitIndex nid) FVal.nan with
  | nan =>
    refine ⟨t.DefaultChild nid, rfl, ?_⟩
    unfold Tree.DefaultChild
    cases t.DefaultLeft nid <;> simp [hl1, hl2, hr1, hr2]
  | fin x =>
    by_cases hcat : t.NodeTypeAt nid = TreeNodeType.kCategoricalTestNode
    · refine ⟨NextNodeCategorical digits x (t.MatchingCategoriesAt nid)
        (t.CategoriesListRightChild nid) (t.LeftChild nid) (t.RightChild nid),
        by simp [hcat], ?_⟩
      unfold NextNodeCategorical
      cases t.CategoriesListRightChild nid <;>
        cases hm : (if x < 0 ∨ |x| > maxRepresentableInt digits then false
          else (t.MatchingCategoriesAt nid).contains (truncToU32 x)) <;>
        simp [hm, hl1, hl2, hr1, hr2]
    · obtain ⟨b, hb⟩ := fcmp_isSome (t.ComparisonOp nid) x (t.ThresholdAt nid) (hop hcat)
      refine ⟨if b then t.LeftChild nid else t.RightChild nid, ?_, ?_⟩
      · simp [hcat, NextNode, hb]
      · cases b <;> simp [hl1, hl2, hr1, hr2]

theorem evalFrom_reaches_leaf {t : Tree} (digits : Nat) (row : List FVal)
    (h : ForwardTree t) :
    ∀ (fuel nid : Nat), nid < t.num_nodes → t.num_nodes - nid ≤ fuel →
      ∃ leaf, evalFrom digits t row nid fuel = Except.ok (some leaf) ∧
        t.IsLeaf leaf = true ∧ leaf < t.num_nodes := by
  intro fuel
  induction fuel with
  | zero => intro nid h1 h2; omega
  | succ fuel ih =>
    intro nid h1 h2
    by_cases hl : t.IsLeaf nid
    · exact ⟨nid, by simp [evalFrom, hl], hl, h1⟩
    · have hl' : t.IsLeaf nid = false := by simpa using hl
      obtain ⟨nxt, hstep, hgt, hlt⟩ := evalStep_forward h digits row h1 hl'
      have hb1 : nxt.toNat < t.num_nodes := by omega
      have hb2 : t.num_nodes - nxt.toNat ≤ fuel := by omega
      obtain ⟨leaf, hev, hleaf, hbound⟩ := ih nxt.toNat hb1 hb2
      refine ⟨leaf, ?_, hleaf, hbound⟩
      simp only [evalFrom, hl', Bool.false_eq_true, if_false]
      rw [hstep]
      simpa using hev

/-- C5 counterexample: the per-tree traversal loop of EvaluateTree has no
    node-iteration cap and no cycle detection.  On a one-node tree whose
    numerical test points back to itself, the loop is still running after
    num_nodes (= 1) iterations, and also after 100 iterations, without any
    fatal error being raised: it is an infinite loop, not a capped one. -/
theorem claim5_cex :
    cycTree.num_nodes = 1
    ∧ evalFrom 24 cycTree [FVal.fin 1] 0 cycTree.num_nodes = Except.ok none
    ∧ evalFrom 24 cycTree [FVal.fin 1] 0 100 = Except.ok none := by
  refine ⟨by with_unfolding_all decide, by with_unfolding_all decide,
    by with_unfolding_all decide⟩

/-- C5 amended: the traversal loop has no iteration cap and reaching
    num_nodes iterations raises no error (see the counterexample); what does
    hold is that on any tree whose internal links go strictly forward and
    stay below num_nodes, with recognized operators, the loop reaches a leaf
    within num_nodes iterations. -/
theorem claim5_amended (t : Tree) (digits : Nat) (row : List FVal)
    (h : ForwardTree t) (hpos : 0 < t.num_nodes) :
    ∃ leaf, evalFrom digits t row 0 t.num_nodes = Except.ok (some leaf) ∧
      t.IsLeaf leaf = true := by
  obtain ⟨leaf, hev, hleaf, _⟩ :=
    evalFrom_reaches_leaf digits row h t.num_nodes 0 hpos (by omega)
  exact ⟨leaf, hev, hleaf⟩

/-- C5 witness: the amended theorem applied to the concrete numerical stump
    and the input row [1.0]. -/
theorem claim5_witness :
    ∃ leaf, evalFrom 24 numStump [FVal.fin 1] 0 numStump.num_nodes = Except.ok (some leaf) ∧
      numStump.IsLeaf leaf = true :=
  claim5_amended numStump 24 [FVal.fin 1]
    (by unfold ForwardTree; with_unfolding_all decide) (by with_unfolding_all decide)

/-! ### Claim C1: averaging of tree outputs -/
/-- C1 (code bug): PredictRaw never divides the accumulated sums by the
    number of contributing trees, whatever average_tree_output says — the
    field is not read at all, so raw prediction is identical with it set to
    true or to false.  On the 2-tree averaged RF scenario (tree stumps with
    leaf vectors [1,0,0] / [0,0.5,0.5], base scores [100,200,300]), input
    [1.0] therefore yields [100, 201, 301] instead of the claimed (and
    test-expected) [100, 200.5, 300.5], and input [-1.0] yields
    [102, 200, 300] instead of [101, 200, 300]. -/
theorem claim1_no_averaging :
    (∀ (m : PModel) (rows : List (List FVal)),
      predictRaw { m with average_tree_output := true } rows =
        predictRaw { m with average_tree_output := false } rows)
    ∧ rfModel.average_tree_output = true
    ∧ predictRaw rfModel [[FVal.fin 1]] = Except.ok [100, 201, 301]
    ∧ predictRaw rfModel [[FVal.fin (-1)]] = Except.ok [102, 200, 300]
    ∧ predictRaw rfModel [[FVal.fin 1]] ≠ Except.ok [100, 401/2, 601/2] := by
  refine ⟨fun m rows => rfl, rfl, by with_unfolding_all decide,
    by with_unfolding_all decide, by with_unfolding_all decide⟩

/-! ### Claim C3: default prediction and post-processing -/
/-- C3 (code bug): for pred_kind default, Predict does not compute raw scores
    and apply the model's named post-processor; it raises the fatal error
    "Not implemented" for every model that passes the input-type check (the
    repository's own test expects softmax to be applied instead). -/
theorem claim3_default_not_implemented
    (m : PModel) (rows : List (List FVal)) (h : m.leaf_output_type = TypeInfo.kFloat32) :
    Predict m TypeInfo.kFloat32 rows PredictKind.kPredictDefault =
      Except.error "Not implemented" := by
  unfold Predict
  simp only [h]
  rfl

/-- C3 witness: the default-prediction fatal error on the concrete RF model
    and input [1.0]. -/
theorem claim3_witness :
    rfModel.leaf_output_type = TypeInfo.kFloat32 ∧
    Predict rfModel TypeInfo.kFloat32 [[FVal.fin 1]] PredictKind.kPredictDefault =
      Except.error "Not implemented" :=
  ⟨rfl, claim3_default_not_implemented rfModel [[FVal.fin 1]] rfl⟩

/-- C2 (code bug): EndTree performs no validation at all — neither the
    unregistered-user-key check nor the orphaned-node check (the code carries
    a TODO for it), so the orphan scenario of the repository's own test
    (which expects EndTree to throw) runs to successful commit.  The
    committed tree has 3 nodes with the two user leaves (internal ids 1, 2)
    unreachable from the root leaf 0. -/
theorem claim2_endTree_accepts_orphans :
    ∃ c, orphanRun = Except.ok c
      ∧ c.2.trees.length = 1
      ∧ (c.2.trees.getD 0 Tree.emptyTree).num_nodes = 3
      ∧ (c.2.trees.getD 0 Tree.emptyTree).IsLeaf 0 = true
      ∧ (c.2.trees.getD 0 Tree.emptyTree).IsLeaf 1 = true
      ∧ (c.2.trees.getD 0 Tree.emptyTree).IsLeaf 2 = true := by
  refine ⟨_, rfl, ?_, ?_, ?_, ?_, ?_⟩ <;> with_unfolding_all decide

/-- C6 (code bug): LeafScalar does not check leaf_vector_shape and LeafVector
    does not check the value count — on the [1,2]-shaped model both a scalar
    leaf and a length-3 leaf vector are accepted (the repository's test
    expects both to throw); only the element-type discipline is enforced
    (a float64 leaf vector on the float32 model is fatal). -/
theorem claim6_no_shape_checks :
    (∃ b, (match shapeBuilder with
           | Except.error e => Except.error e
           | Except.ok b0 => runOps b0
               [BuilderOp.startTree, BuilderOp.startNode 0, BuilderOp.leafScalar (-1)]) =
        Except.ok b)
    ∧ (∃ b, (match shapeBuilder with
             | Except.error e => Except.error e
             | Except.ok b0 => runOps b0
                 [BuilderOp.startTree, BuilderOp.startNode 0,
                  BuilderOp.leafVectorF32 [0, 1, 2]]) =
        Except.ok b)
    ∧ (match shapeBuilder with
       | Except.error e => Except.error e
       | Except.ok b0 => runOps b0
           [BuilderOp.startTree, BuilderOp.startNode 0, BuilderOp.leafVectorF64 [0, 1]]) =
        Except.error "Mismatched type for leaf vector. Expected: float64, Got: float32" := by
  refine ⟨⟨_, rfl⟩, ⟨_, rfl⟩, by with_unfolding_all decide⟩

/-! ### Effect lemmas for builder ops (used for claims C9 and C10) -/
theorem except_ok_bind {α β ε : Type} (a : α) (f : α → Except ε β) :
    (Except.ok a >>= f) = f a := rfl

theorem except_error_bind {α β ε : Type} (e : ε) (f : α → Except ε β) :
    ((Except.error e : Except ε α) >>= f) = Except.error e := rfl

theorem AllocNode_ok {t t1 : Tree} {nd : Nat} (h : t.AllocNode = Except.ok (t1, nd)) :
    nd = t.num_nodes
    ∧ t1.num_nodes = t.num_nodes + 1
    ∧ t1.matching_categories = t.matching_categories
    ∧ t1.matching_categories_offset =
        t.matching_categories_offset ++ [t.matching_categories_offset.getLastD 0] := by
  unfold Tree.AllocNode at h
  split at h
  · exact absurd h (by simp)
  · injection h with h
    injection h with ha hb
    subst ha
    subst hb
    exact ⟨rfl, rfl, rfl, rfl⟩

theorem SetNumericalSplit_ok {t t' : Tree} {nid si : Nat} {th : FVal} {dl : Bool}
    {cmp : Operator} (h : t.SetNumericalSplit nid si th dl cmp = Except.ok t') :
    t'.num_nodes = t.num_nodes
    ∧ t'.matching_categories = t.matching_categories
    ∧ t'.matching_categories_offset = t.matching_categories_offset := by
  unfold Tree.SetNumericalSplit at h
  split at h
  · exact absurd h (by simp)
  · injection h with h
    refine ⟨?_, ?_, ?_⟩ <;> rw [← h] <;> rfl

theorem SetCategoricalSplit_ok {t t' : Tree} {nid si : Nat} {dl : Bool}
    {cats : List Nat} {clrc : Bool}
    (h : t.SetCategoricalSplit nid si dl cats clrc = Except.ok t') :
    t'.num_nodes = t.num_nodes := by
  unfold Tree.SetCategoricalSplit at h
  repeat' split at h
  all_goals
    first
      | (injection h with h; subst h; simp [Tree.setNode])
      | exact absurd h (by simp)

theorem translateChildIds_num_nodes (m : List (Int × Nat)) (t : Tree) :
    (translateChildIds m t).num_nodes = t.num_nodes := by
  unfold translateChildIds
  generalize List.range t.num_nodes = l
  induction l generalizing t with
  | nil => rfl
  | cons i l ih =>
    rw [List.foldl_cons]
    rw [ih]
    by_cases h : (t.IsLeaf i : Bool) <;> simp [h, Tree.SetChildren, Tree.setNode]

/-- Effect of a node-scoped builder call on the current tree size and the
    committed tree list. -/
theorem runOp_nodeScoped_effects {b b' : Builder} {op : BuilderOp}
    (hop : nodeScoped op = true) (h : runOp b op = Except.ok b') :
    b'.current_tree.num_nodes = b.current_tree.num_nodes + countStartNode [op]
    ∧ b'.trees = b.trees := by
  cases op with
  | startTree => simp [nodeScoped] at hop
  | endTree => simp [nodeScoped] at hop
  | startNode k =>
    simp only [runOp] at h
    unfold Builder.startNode at h
    split at h
    · exact absurd h (by simp)
    · split at h
      · exact absurd h (by simp)
      · rename_i t node_id halloc
        injection h with h
        obtain ⟨-, hn, -, -⟩ := AllocNode_ok halloc
        rw [← h]
        refine ⟨?_, rfl⟩
        simpa [countStartNode, List.countP, List.countP.go] using hn
  | endNode =>
    simp only [runOp] at h
    unfold Builder.endNode at h
    split at h
    · exact absurd h (by simp)
    · injection h with h
      rw [← h]
      exact ⟨rfl, rfl⟩
  | numericalTest si th dl cmp lk rk =>
    simp only [runOp] at h
    unfold Builder.numericalTest at h
    split at h
    · exact absurd h (by simp)
    · split at h
      · exact absurd h (by simp)
      · rename_i t hset
        injection h with h
        obtain ⟨hn, -, -⟩ := SetNumericalSplit_ok hset
        rw [← h]
        refine ⟨?_, rfl⟩
        simpa [countStartNode, List.countP, List.countP.go, Tree.SetChildren,
          Tree.setNode] using hn
  | categoricalTest si dl cats clrc lk rk =>
    simp only [runOp] at h
    unfold Builder.categoricalTest at h
    split at h
    · exact absurd h (by simp)
    · split at h
      · exact absurd h (by simp)
      · rename_i t hset
        injection h with h
        have hn := SetCategoricalSplit_ok hset
        rw [← h]
        refine ⟨?_, rfl⟩
        simpa [countStartNode, List.countP, List.countP.go, Tree.SetChildren,
          Tree.setNode] using hn
  | leafScalar v =>
    simp only [runOp] at h
    unfold Builder.leafScalar at h
    split at h
    · exact absurd h (by simp)
    · injection h with h
      rw [← h]
      exact ⟨rfl, rfl⟩
  | leafVectorF32 vs =>
    simp only [runOp] at h
    unfold Builder.leafVectorF32 at h
    split at h
    · exact absurd h (by simp)
    · split at h
      · exact absurd h (by simp)
      · injection h with h
        rw [← h]
        exact ⟨rfl, rfl⟩
  | leafVectorF64 vs =>
    simp only [runOp] at h
    unfold Builder.leafVectorF64 at h
    split at h
    · exact absurd h (by simp)
    · split at h
      · exact absurd h (by simp)
      · injection h with h
        rw [← h]
        exact ⟨rfl, rfl⟩
  | gain g =>
    simp only [runOp] at h
    unfold Builder.gain at h
    split at h
    · exact absurd h (by simp)
    · injection h with h
      rw [← h]
      exact ⟨rfl, rfl⟩
  | dataCount c =>
    simp only [runOp] at h
    unfold Builder.dataCount at h
    split at h
    · exact absurd h (by simp)
    · injection h with h
      rw [← h]
      exact ⟨rfl, rfl⟩
  | sumHess s =>
    simp only [runOp] at h
    unfold Builder.sumHess at h
    split at h
    · exact absurd h (by simp)
    · injection h with h
      rw [← h]
      exact ⟨rfl, rfl⟩

/-- Cumulative effect of a node-scoped trace. -/
theorem runOps_nodeScoped_effects :
    ∀ (ops : List BuilderOp) {b b' : Builder},
      (∀ op ∈ ops, nodeScoped op = true) → runOps b ops = Except.ok b' →
      b'.current_tree.num_nodes = b.current_tree.num_nodes + countStartNode ops
      ∧ b'.trees = b.trees := by
  intro ops
  induction ops with
  | nil =>
    intro b b' _ h
    injection h with h
    rw [← h]
    simp [countStartNode]
  | cons op ops ih =>
    intro b b' hall h
    unfold runOps at h
    split at h
    · exact absurd h (by simp)
    · rename_i b1 hop
      obtain ⟨h1, h2⟩ := runOp_nodeScoped_effects (hall op (by simp)) hop
      obtain ⟨h3, h4⟩ := ih (fun o ho => hall o (by simp [ho])) h
      constructor
      · rw [h3, h1]
        simp only [countStartNode, List.countP_cons, List.countP_nil] at *
        omega
      · rw [h4, h2]

theorem startTree_ok {b b' : Builder} (h : b.startTree = Except.ok b') :
    b.current_state = BState.kExpectTree
    ∧ b' = { b with current_tree := Tree.InitTree, current_state := BState.kExpectNode } := by
  unfold Builder.startTree at h
  split at h
  · exact absurd h (by simp)
  · rename_i hc
    injection h with h
    exact ⟨by simpa using hc, h.symm⟩

theorem startNode_ok {b b' : Builder} {k : Int} (h : b.startNode k = Except.ok b') :
    b.current_state = BState.kExpectNode
    ∧ b'.current_node_id = b.current_tree.num_nodes
    ∧ b'.current_tree.num_nodes = b.current_tree.num_nodes + 1
    ∧ b'.node_id_map = mapAssign b.node_id_map k b.current_tree.num_nodes
    ∧ b'.current_state = BState.kExpectDetail := by
  unfold Builder.startNode at h
  split at h
  · exact absurd h (by simp)
  · rename_i hc
    split at h
    · exact absurd h (by simp)
    · rename_i t nid halloc
      obtain ⟨h1, h2, -, -⟩ := AllocNode_ok halloc
      injection h with h
      subst h1
      refine ⟨by simpa using hc, ?_, ?_, ?_, ?_⟩ <;> rw [← h]
      exact h2

theorem endTree_ok {b b' : Builder} (h : b.endTree = Except.ok b') :
    b.current_state = BState.kExpectNode
    ∧ b' = { b with
               trees := b.trees ++ [translateChildIds b.node_id_map b.current_tree],
               node_id_map := [],
               current_state := BState.kExpectTree } := by
  unfold Builder.endTree at h
  split at h
  · exact absurd h (by simp)
  · rename_i hc
    injection h with h
    exact ⟨by simpa using hc, h.symm⟩

theorem runOp_preserves_inv {b b' : Builder} {op : BuilderOp}
    (hinv : BuilderInv b) (h : runOp b op = Except.ok b') : BuilderInv b' := by
  obtain ⟨hmap, htree⟩ := hinv
  cases op with
  | startTree =>
    simp only [runOp] at h
    obtain ⟨-, h⟩ := startTree_ok h
    subst h
    exact ⟨hmap, fun _ => by simp [Tree.InitTree]⟩
  | endTree =>
    simp only [runOp] at h
    obtain ⟨-, h⟩ := endTree_ok h
    subst h
    exact ⟨by simp, by simp⟩
  | startNode k =>
    simp only [runOp] at h
    obtain ⟨hst, -, hn, hm, hs⟩ := startNode_ok h
    have hpos : 1 ≤ b.current_tree.num_nodes := htree (Or.inl hst)
    constructor
    · intro p hp
      rw [hm] at hp
      unfold mapAssign at hp
      rcases List.mem_cons.mp hp with hp | hp
      · subst hp; exact hpos
      · exact hmap p (List.mem_of_mem_filter hp)
    · intro _
      omega
  | endNode =>
    simp only [runOp] at h
    unfold Builder.endNode at h
    split at h
    · exact absurd h (by simp)
    · rename_i hc
      injection h with h
      subst h
      exact ⟨hmap, fun _ => htree (Or.inr (Or.inr (by simpa using hc)))⟩
  | numericalTest si th dl cmp lk rk =>
    simp only [runOp] at h
    unfold Builder.numericalTest at h
    split at h
    · exact absurd h (by simp)
    · rename_i hc
      split at h
      · exact absurd h (by simp)
      · rename_i t hset
        obtain ⟨hn, -, -⟩ := SetNumericalSplit_ok hset
        injection h with h
        subst h
        refine ⟨hmap, fun _ => ?_⟩
        have := htree (Or.inr (Or.inl (by simpa using hc)))
        simpa [Tree.SetChildren, Tree.setNode, hn] using this
  | categoricalTest si dl cats clrc lk rk =>
    simp only [runOp] at h
    unfold Builder.categoricalTest at h
    split at h
    · exact absurd h (by simp)
    · rename_i hc
      split at h
      · exact absurd h (by simp)
      · rename_i t hset
        have hn := SetCategoricalSplit_ok hset
        injection h with h
        subst h
        refine ⟨hmap, fun _ => ?_⟩
        have := htree (Or.inr (Or.inl (by simpa using hc)))
        simpa [Tree.SetChildren, Tree.setNode, hn] using this
  | leafScalar v =>
    simp only [runOp] at h
    unfold Builder.leafScalar at h
    split at h
    · exact absurd h (by simp)
    · rename_i hc
      injection h with h
      subst h
      refine ⟨hmap, fun _ => ?_⟩
      have := htree (Or.inr (Or.inl (by simpa using hc)))
      simpa [Tree.SetLeaf, Tree.setNode] using this
  | leafVectorF32 vs =>
    simp only [runOp] at h
    unfold Builder.leafVectorF32 at h
    split at h
    · exact absurd h (by simp)
    · rename_i hc
      split at h
      · exact absurd h (by simp)
      · injection h with h
        subst h
        refine ⟨hmap, fun _ => ?_⟩
        have := htree (Or.inr (Or.inl (by simpa using hc)))
        simpa [Tree.SetLeafVector, Tree.setNode] using this
  | leafVectorF64 vs =>
    simp only [runOp] at h
    unfold Builder.leafVectorF64 at h
    split at h
    · exact absurd h (by simp)
    · rename_i hc
      split at h
      · exact absurd h (by simp)
      · injection h with h
        subst h
        refine ⟨hmap, fun _ => ?_⟩
        have := htree (Or.inr (Or.inl (by simpa using hc)))
        simpa [Tree.SetLeafVector, Tree.setNode] using this
  | gain g =>
    simp only [runOp] at h
    unfold Builder.gain at h
    split at h
    · exact absurd h (by simp)
    · rename_i hc
      injection h with h
      subst h
      rw [Decidable.not_and_iff_or_not] at hc
      refine ⟨hmap, fun _ => ?_⟩
      have : 1 ≤ b.current_tree.num_nodes := by
        rcases hc with hc | hc
        · exact htree (Or.inr (Or.inl (by simpa using hc)))
        · exact htree (Or.inr (Or.inr (by simpa using hc)))
      simpa [Tree.SetGain, Tree.setNode] using this
  | dataCount c =>
    simp only [runOp] at h
    unfold Builder.dataCount at h
    split at h
    · exact absurd h (by simp)
    · rename_i hc
      injection h with h
      subst h
      rw [Decidable.not_and_iff_or_not] at hc
      refine ⟨hmap, fun _ => ?_⟩
      have : 1 ≤ b.current_tree.num_nodes := by
        rcases hc with hc | hc
        · exact htree (Or.inr (Or.inl (by simpa using hc)))
        · exact htree (Or.inr (Or.inr (by simpa using hc)))
      simpa [Tree.SetDataCount, Tree.setNode] using this
  | sumHess s =>
    simp only [runOp] at h
    unfold Builder.sumHess at h
    split at h
    · exact absurd h (by simp)
    · rename_i hc
      injection h with h
      subst h
      rw [Decidable.not_and_iff_or_not] at hc
      refine ⟨hmap, fun _ => ?_⟩
      have : 1 ≤ b.current_tree.num_nodes := by
        rcases hc with hc | hc
        · exact htree (Or.inr (Or.inl (by simpa using hc)))
        · exact htree (Or.inr (Or.inr (by simpa using hc)))
      simpa [Tree.SetSumHess, Tree.setNode] using this

theorem runOps_preserves_inv :
    ∀ (ops : List BuilderOp) {b b' : Builder},
      BuilderInv b → runOps b ops = Except.ok b' → BuilderInv b' := by
  intro ops
  induction ops with
  | nil =>
    intro b b' hinv h
    injection h with h
    exact h ▸ hinv
  | cons op ops ih =>
    intro b b' hinv h
    unfold runOps at h
    split at h
    · exact absurd h (by simp)
    · rename_i b1 hop
      exact ih (runOp_preserves_inv hinv hop) h

theorem runOps_append (l1 l2 : List BuilderOp) (b : Builder) :
    runOps b (l1 ++ l2) =
      match runOps b l1 with
      | Except.error e => Except.error e
      | Except.ok b1 => runOps b1 l2 := by
  induction l1 generalizing b with
  | nil => rfl
  | cons op l1 ih =>
    rw [List.cons_append]
    show (match runOp b op with
          | Except.error e => Except.error e
          | Except.ok b1 => runOps b1 (l1 ++ l2)) =
      match (match runOp b op with
             | Except.error e => Except.error e
             | Except.ok b1 => runOps b1 l1) with
      | Except.error e => Except.error e
      | Except.ok b1 => runOps b1 l2
    cases runOp b op
    · rfl
    · rename_i b1
      exact ih b1

theorem initializeModel_inv {tt lt : TypeInfo} {nf : Nat} {task : TaskType} {avg : Bool}
    {ntg : Nat} {ncl lvs : List Nat} {ntr : Nat} {tid cid : List Int} {pp : String}
    {bs : List ℚ} {b0 : Builder}
    (h : initializeModel tt lt nf task avg ntg ncl lvs ntr tid cid pp bs = Except.ok b0) :
    BuilderInv b0 ∧ b0.current_state = BState.kExpectTree ∧ b0.trees = [] := by
  unfold initializeModel at h
  repeat' split at h
  any_goals contradiction
  injection h with h
  subst h
  refine ⟨⟨?_, ?_⟩, rfl, rfl⟩
  · simp
  · simp

/-- C10: StartTree initializes the current tree to a one-node tree whose node
    0 is a leaf with value 0; the first StartNode of each tree therefore
    allocates internal id 1 and records it for the user key; a tree committed
    by EndTree after k StartNode calls has num_nodes = k + 1; and starting
    from a freshly initialized builder, no user key is ever mapped to
    internal node 0. -/
theorem claim10_tree_allocation :
    (∀ b b' : Builder, b.startTree = Except.ok b' → b'.current_tree = Tree.InitTree)
    ∧ Tree.InitTree.num_nodes = 1
    ∧ Tree.InitTree.nodes.length = 1
    ∧ Tree.InitTree.IsLeaf 0 = true
    ∧ Tree.InitTree.LeafValue 0 = 0
    ∧ (∀ (b b1 b2 : Builder) (k : Int),
        b.startTree = Except.ok b1 → b1.startNode k = Except.ok b2 →
          b2.current_node_id = 1 ∧ mapGetD b2.node_id_map k = 1)
    ∧ (∀ (b0 b' : Builder) (ops : List BuilderOp),
        (∀ op ∈ ops, nodeScoped op = true) →
        runOps b0 (BuilderOp.startTree :: (ops ++ [BuilderOp.endTree])) = Except.ok b' →
          ∃ t, b'.trees = b0.trees ++ [t] ∧ t.num_nodes = countStartNode ops + 1)
    ∧ (∀ (tt lt : TypeInfo) (nf : Nat) (task : TaskType) (avg : Bool) (ntg : Nat)
         (ncl lvs : List Nat) (ntr : Nat) (tid cid : List Int) (pp : String) (bs : List ℚ)
         (b0 b' : Builder) (ops : List BuilderOp),
        initializeModel tt lt nf task avg ntg ncl lvs ntr tid cid pp bs = Except.ok b0 →
        runOps b0 ops = Except.ok b' →
          ∀ p ∈ b'.node_id_map, p.2 ≠ 0) := by
  refine ⟨?_, rfl, rfl, rfl, rfl, ?_, ?_, ?_⟩
  · intro b b' h
    obtain ⟨-, h⟩ := startTree_ok h
    subst h
    rfl
  · intro b b1 b2 k h1 h2
    obtain ⟨-, h1⟩ := startTree_ok h1
    subst h1
    obtain ⟨-, hid, -, hm, -⟩ := startNode_ok h2
    constructor
    · simpa using hid
    · rw [hm]
      unfold mapGetD mapAssign
      simp [Tree.InitTree]
  · intro b0 b' ops hscoped h
    unfold runOps at h
    split at h
    · exact absurd h (by simp)
    · rename_i b1 hst
      simp only [runOp] at hst
      obtain ⟨-, hb1⟩ := startTree_ok hst
      rw [runOps_append] at h
      split at h
      · exact absurd h (by simp)
      · rename_i b2 hmid
        obtain ⟨hn2, ht2⟩ := runOps_nodeScoped_effects ops hscoped hmid
        have hend : b2.endTree = Except.ok b' := by
          unfold runOps at h
          split at h
          · exact absurd h (by simp)
          · rename_i bz hopend
            injection h with h
            subst h
            simpa only [runOp] using hopend
        obtain ⟨-, hb'⟩ := endTree_ok hend
        subst hb'
        refine ⟨translateChildIds b2.node_id_map b2.current_tree, ?_, ?_⟩
        · rw [ht2, hb1]
        · rw [translateChildIds_num_nodes, hn2, hb1]
          simp [Tree.InitTree, Nat.add_comm]
  · intro tt lt nf task avg ntg ncl lvs ntr tid cid pp bs b0 b' ops hinit hrun p hp
    obtain ⟨hinv, -, -⟩ := initializeModel_inv hinit
    obtain ⟨hmap, -⟩ := runOps_preserves_inv ops hinv hrun
    have := hmap p hp
    omega

/-- C10 witness: the committed tree of the concrete two-StartNode trace has
    num_nodes = 2 + 1. -/
theorem claim10_witness :
    ∃ t, c10bf.trees = c10b0.trees ++ [t] ∧ t.num_nodes = countStartNode c10inner + 1 :=
  claim10_tree_allocation.2.2.2.2.2.2.1 c10b0 c10bf c10inner
    (by decide) (by with_unfolding_all decide)

theorem getD_append_lt {l : List Nat} {x : Nat} {i : Nat} (h : i < l.length) :
    (l ++ [x]).getD i 0 = l.getD i 0 := by
  rw [List.getD_eq_getElem?_getD, List.getD_eq_getElem?_getD, List.getElem?_append,
    if_pos h]

theorem getD_append_self {l : List Nat} {x : Nat} :
    (l ++ [x]).getD l.length 0 = x := by
  rw [List.getD_eq_getElem?_getD, List.getElem?_append_right (le_refl _)]
  simp

theorem getD_oob {l : List Nat} {i : Nat} (h : l.length ≤ i) : l.getD i 0 = 0 := by
  rw [List.getD_eq_getElem?_getD, List.getElem?_eq_none (by omega)]
  rfl

theorem getD_last_eq_getLastD {l : List Nat} (_h : l ≠ []) :
    l.getD (l.length - 1) 0 = l.getLastD 0 := by
  rw [List.getD_eq_getElem?_getD, List.getLastD_eq_getLast?, List.getLast?_eq_getElem?]

theorem getD_mem {l : List Nat} {i : Nat} (h : i < l.length) : l.getD i 0 ∈ l := by
  rw [List.getD_eq_getElem?_getD, List.getElem?_eq_getElem h]
  exact List.getElem_mem h

theorem getLastD_append_singleton {l : List Nat} {x : Nat} :
    (l ++ [x]).getLastD 0 = x := by
  rw [List.getLastD_eq_getLast?, List.getLast?_concat]
  rfl

/-- The getter only reads the category pool and offsets. -/
theorem MatchingCategoriesAt_congr {t1 t2 : Tree}
    (h1 : t1.matching_categories = t2.matching_categories)
    (h2 : t1.matching_categories_offset = t2.matching_categories_offset) (nid : Nat) :
    t1.MatchingCategoriesAt nid = t2.MatchingCategoriesAt nid := by
  unfold Tree.MatchingCategoriesAt
  rw [h1, h2]

/-- AllocNode leaves every node's category list unchanged or empty. -/
theorem MatchingCategoriesAt_alloc {t t1 : Tree} {nd : Nat}
    (h : t.AllocNode = Except.ok (t1, nd)) (hinv : CatOffInv t) (nid : Nat) :
    t1.MatchingCategoriesAt nid = t.MatchingCategoriesAt nid
    ∨ t1.MatchingCategoriesAt nid = [] := by
  obtain ⟨hlen, hbound, hlast⟩ := hinv
  obtain ⟨-, -, hmc, hoff⟩ := AllocNode_ok h
  set off := t.matching_categories_offset with hoffdef
  have hne : off ≠ [] := by
    intro hc
    rw [hc] at hlen
    simp at hlen
  unfold Tree.MatchingCategoriesAt
  rw [hmc, hoff]
  by_cases h1 : nid + 1 < off.length
  · left
    rw [getD_append_lt h1, getD_append_lt (by omega)]
  · right
    by_cases h2 : nid + 1 = off.length
    · have hb : (off ++ [off.getLastD 0]).getD nid 0 = t.matching_categories.length := by
        have : nid = off.length - 1 := by omega
        rw [getD_append_lt (by omega), this, getD_last_eq_getLastD hne, hlast]
      rw [hb]
      simp
    · by_cases h3 : nid = off.length
      · have hb : (off ++ [off.getLastD 0]).getD nid 0 = t.matching_categories.length := by
          rw [h3, getD_append_self, hlast]
        rw [hb]
        simp
      · have hb : (off ++ [off.getLastD 0]).getD nid 0 = 0 := by
          rw [getD_oob (by simp; omega)]
        have he : (off ++ [off.getLastD 0]).getD (nid + 1) 0 = 0 := by
          rw [getD_oob (by simp; omega)]
        rw [hb, he]
        split
        · rfl
        · simp

theorem MatchingCategoriesAt_eq_catSlice (t : Tree) (j : Nat) :
    t.MatchingCategoriesAt j = catSlice t.matching_categories t.matching_categories_offset j :=
  rfl

/-- Pure-list core of the SetCategoricalSplit segment update: appending a
    block at the pool tail for node nid (whose begin offset sits at the
    tail) and pointing all later offsets at the new tail yields exactly the
    block at nid, keeps earlier slices (or leaves them empty), and leaves
    later slices empty. -/
theorem catSlice_update (pool off blk : List Nat) (nid : Nat)
    (hbound : ∀ a ∈ off, a ≤ pool.length)
    (hnid : off.getD nid 0 = pool.length)
    (hpos : nid + 1 < off.length) :
    catSlice (pool ++ blk)
        (off.take (nid + 1) ++ (off.drop (nid + 1)).map (fun _ => pool.length + blk.length)) nid
      = blk
    ∧ (∀ j, j < nid →
        catSlice (pool ++ blk)
            (off.take (nid + 1) ++ (off.drop (nid + 1)).map (fun _ => pool.length + blk.length)) j
          = catSlice pool off j
        ∨ catSlice (pool ++ blk)
            (off.take (nid + 1) ++ (off.drop (nid + 1)).map (fun _ => pool.length + blk.length)) j
          = [])
    ∧ (∀ j, nid < j →
        catSlice (pool ++ blk)
            (off.take (nid + 1) ++ (off.drop (nid + 1)).map (fun _ => pool.length + blk.length)) j
          = []) := by
  have hlen2 : (pool ++ blk).length = pool.length + blk.length := by
    rw [List.length_append]
  have htklen : (off.take (nid + 1)).length = nid + 1 := by
    rw [List.length_take]
    omega
  have hgetD_lo : ∀ j, j ≤ nid →
      (off.take (nid + 1) ++ (off.drop (nid + 1)).map (fun _ => pool.length + blk.length)).getD j 0
        = off.getD j 0 := by
    intro j hj
    rw [List.getD_eq_getElem?_getD, List.getElem?_append, if_pos (by omega),
      List.getElem?_take, if_pos (by omega), ← List.getD_eq_getElem?_getD]
  have hgetD_hi : ∀ j, nid + 1 ≤ j → j < off.length →
      (off.take (nid + 1) ++ (off.drop (nid + 1)).map (fun _ => pool.length + blk.length)).getD j 0
        = pool.length + blk.length := by
    intro j hj1 hj2
    rw [List.getD_eq_getElem?_getD, List.getElem?_append, if_neg (by omega),
      List.getElem?_map, htklen, List.getElem?_drop,
      show nid + 1 + (j - (nid + 1)) = j by omega,
      List.getElem?_eq_getElem hj2]
    rfl
  have hofflen :
      (off.take (nid + 1) ++ (off.drop (nid + 1)).map (fun _ => pool.length + blk.length)).length
        = off.length := by
    rw [List.length_append, List.length_map, List.length_drop, htklen]
    omega
  refine ⟨?_, ?_, ?_⟩
  · unfold catSlice
    rw [hgetD_lo nid (le_refl _), hnid, hgetD_hi (nid + 1) (le_refl _) hpos, hlen2]
    by_cases hQ0 : blk.length = 0
    · have : blk = [] := List.eq_nil_of_length_eq_zero hQ0
      subst this
      simp
    · rw [if_neg (by omega)]
      rw [List.drop_left]
      rw [Nat.add_sub_cancel_left, List.take_length]
  · intro j hj
    unfold catSlice
    rw [hgetD_lo j (by omega), hgetD_lo (j + 1) (by omega), hlen2]
    by_cases hjb : j + 1 < off.length
    · have hebound : off.getD (j + 1) 0 ≤ pool.length := hbound _ (getD_mem hjb)
      by_cases hguard : off.getD j 0 ≥ pool.length ∨ off.getD (j + 1) 0 > pool.length
      · right
        rcases hguard with hg | hg
        · -- begin at or past the old tail: begin = pool.length exactly
          have hb : off.getD j 0 = pool.length := by
            by_cases hjin : j < off.length
            · have := hbound _ (getD_mem hjin)
              omega
            · rw [getD_oob (by omega)] at hg ⊢
              omega
          rw [hb]
          by_cases hQ0 : blk.length = 0
          · rw [if_pos (by omega)]
          · rw [if_neg (by omega), List.drop_left]
            have : off.getD (j + 1) 0 - pool.length = 0 := by omega
            rw [this, List.take_zero]
        · omega
      · left
        push_neg at hguard
        rw [if_neg (by omega), if_neg (by push_neg; exact hguard)]
        rw [List.drop_append_eq_append_drop,
          show off.getD j 0 - pool.length = 0 from by omega, List.drop_zero,
          List.take_append_of_le_length (by rw [List.length_drop]; omega)]
    · have he0 : off.getD (j + 1) 0 = 0 := getD_oob (by omega)
      rw [he0]
      by_cases hg : off.getD j 0 ≥ pool.length + blk.length
      · right
        rw [if_pos (by omega)]
      · right
        rw [if_neg (by omega)]
        simp
  · intro j hj
    unfold catSlice
    by_cases hjin : j < off.length
    · rw [hgetD_hi j (by omega) hjin, hlen2]
      rw [if_pos (by omega)]
    · have hb2 := getD_oob (l := off.take (nid + 1) ++ (off.drop (nid + 1)).map
        (fun _ => pool.length + blk.length)) (i := j) (by omega)
      have he2 := getD_oob (l := off.take (nid + 1) ++ (off.drop (nid + 1)).map
        (fun _ => pool.length + blk.length)) (i := j + 1) (by omega)
      rw [hb2, he2, hlen2]
      by_cases hg : 0 ≥ pool.length + blk.length
      · rw [if_pos (Or.inl hg)]
      · rw [if_neg (by omega)]
        simp

/-- Field equations of a successful SetCategoricalSplit. -/
theorem SetCategoricalSplit_fields {t t' : Tree} {nid si : Nat} {dl : Bool}
    {cats : List Nat} {clrc : Bool}
    (h : t.SetCategoricalSplit nid si dl cats clrc = Except.ok t')
    (hlast : t.matching_categories_offset.getLastD 0 = t.matching_categories.length) :
    t'.matching_categories = t.matching_categories ++ cats.insertionSort (fun a b => a ≤ b)
    ∧ t'.matching_categories_offset =
        t.matching_categories_offset.take (nid + 1)
          ++ (t.matching_categories_offset.drop (nid + 1)).map
            (fun _ => t.matching_categories.length + cats.length)
    ∧ nid + 1 < t.matching_categories_offset.length := by
  unfold Tree.SetCategoricalSplit at h
  split at h
  · exact absurd h (by simp)
  · split at h
    · exact absurd h (by simp)
    · split at h
      · exact absurd h (by simp)
      · split at h
        · exact absurd h (by simp)
        · rename_i hsi hteq hall hpos
          rw [not_le] at hpos
          injection h with h
          refine ⟨by rw [← h], ?_, hpos⟩
          rw [← h]
          show t.matching_categories_offset.take (nid + 1)
              ++ (t.matching_categories_offset.drop (nid + 1)).map
                (fun _ => t.matching_categories_offset.getLastD 0 + cats.length) = _
          rw [hlast]

/-- A successful SetCategoricalSplit applied to the tail node: the node gets
    exactly the sorted list, earlier nodes keep their lists (or become
    empty), later nodes have empty lists. -/
theorem MatchingCategoriesAt_setCat {t t' : Tree} {nid si : Nat} {dl : Bool}
    {cats : List Nat} {clrc : Bool}
    (h : t.SetCategoricalSplit nid si dl cats clrc = Except.ok t')
    (hinv : CatOffInv t)
    (hnid : t.matching_categories_offset.getD nid 0 = t.matching_categories.length) :
    t'.MatchingCategoriesAt nid = cats.insertionSort (fun a b => a ≤ b)
    ∧ (∀ j, j < nid →
        t'.MatchingCategoriesAt j = t.MatchingCategoriesAt j
        ∨ t'.MatchingCategoriesAt j = [])
    ∧ (∀ j, nid < j → t'.MatchingCategoriesAt j = []) := by
  obtain ⟨hlen, hbound, hlast⟩ := hinv
  obtain ⟨hmc, hoff, hpos⟩ := SetCategoricalSplit_fields h hlast
  have hsrtlen : (cats.insertionSort (fun a b => a ≤ b)).length = cats.length :=
    List.length_insertionSort _ _
  have key := catSlice_update t.matching_categories t.matching_categories_offset
    (cats.insertionSort (fun a b => a ≤ b)) nid hbound hnid hpos
  rw [hsrtlen] at key
  refine ⟨?_, ?_, ?_⟩
  · rw [MatchingCategoriesAt_eq_catSlice, hmc, hoff]
    exact key.1
  · intro j hj
    rw [MatchingCategoriesAt_eq_catSlice, MatchingCategoriesAt_eq_catSlice, hmc, hoff]
    exact key.2.1 j hj
  · intro j hj
    rw [MatchingCategoriesAt_eq_catSlice, hmc, hoff]
    exact key.2.2 j hj

theorem sortedTree_of_empty_pool {t : Tree} (h : t.matching_categories = []) :
    SortedTree t := by
  intro nid
  rw [MatchingCategoriesAt_eq_catSlice]
  unfold catSlice
  rw [h]
  simp

theorem sortedTree_congr {t1 t2 : Tree}
    (h1 : t1.matching_categories = t2.matching_categories)
    (h2 : t1.matching_categories_offset = t2.matching_categories_offset)
    (h : SortedTree t2) : SortedTree t1 := by
  intro nid
  rw [MatchingCategoriesAt_congr h1 h2]
  exact h nid

theorem catOffInv_congr {t1 t2 : Tree}
    (h1 : t1.matching_categories = t2.matching_categories)
    (h2 : t1.matching_categories_offset = t2.matching_categories_offset)
    (h3 : t1.num_nodes = t2.num_nodes)
    (h : CatOffInv t2) : CatOffInv t1 := by
  obtain ⟨ha, hb, hc⟩ := h
  refine ⟨?_, ?_, ?_⟩
  · rw [h2, h3]
    exact ha
  · rw [h1, h2]
    exact hb
  · rw [h1, h2]
    exact hc

theorem translateChildIds_pools (m : List (Int × Nat)) (t : Tree) :
    (translateChildIds m t).matching_categories = t.matching_categories
    ∧ (translateChildIds m t).matching_categories_offset = t.matching_categories_offset := by
  unfold translateChildIds
  generalize List.range t.num_nodes = l
  induction l generalizing t with
  | nil => exact ⟨rfl, rfl⟩
  | cons i l ih =>
    rw [List.foldl_cons]
    have step : ∀ u : Tree,
        Tree.matching_categories (if u.IsLeaf i then u
          else u.SetChildren i (mapGetD m (u.LeftChild i)) (mapGetD m (u.RightChild i)))
          = u.matching_categories
        ∧ Tree.matching_categories_offset (if u.IsLeaf i then u
          else u.SetChildren i (mapGetD m (u.LeftChild i)) (mapGetD m (u.RightChild i)))
          = u.matching_categories_offset := by
      intro u
      by_cases hu : u.IsLeaf i = true
      · rw [if_pos hu]
        exact ⟨rfl, rfl⟩
      · rw [if_neg hu]
        exact ⟨rfl, rfl⟩
    obtain ⟨s1, s2⟩ := step t
    obtain ⟨i1, i2⟩ := ih (if t.IsLeaf i then t
      else t.SetChildren i (mapGetD m (t.LeftChild i)) (mapGetD m (t.RightChild i)))
    exact ⟨by rw [i1, s1], by rw [i2, s2]⟩

theorem AllocNode_catOffInv {t t1 : Tree} {nd : Nat}
    (h : t.AllocNode = Except.ok (t1, nd)) (hinv : CatOffInv t) :
    CatOffInv t1
    ∧ t1.matching_categories_offset.getD nd 0 = t1.matching_categories.length := by
  obtain ⟨hlen, hbound, hlast⟩ := hinv
  obtain ⟨hnd, hnum, hmc, hoff⟩ := AllocNode_ok h
  have hne : t.matching_categories_offset ≠ [] := by
    intro hc
    rw [hc] at hlen
    simp at hlen
  refine ⟨⟨?_, ?_, ?_⟩, ?_⟩
  · rw [hoff, hnum, List.length_append, hlen]
    simp
  · intro a ha
    rw [hoff] at ha
    rw [hmc]
    rcases List.mem_append.mp ha with ha | ha
    · exact hbound a ha
    · rw [List.mem_singleton.mp ha, hlast]
  · rw [hoff, hmc, getLastD_append_singleton, hlast]
  · rw [hoff, hmc, hnd]
    rw [getD_append_lt (by omega)]
    rw [show t.num_nodes = t.matching_categories_offset.length - 1 by omega]
    rw [getD_last_eq_getLastD hne, hlast]

theorem setCat_catOffInv {t t' : Tree} {nid si : Nat} {dl : Bool}
    {cats : List Nat} {clrc : Bool}
    (h : t.SetCategoricalSplit nid si dl cats clrc = Except.ok t')
    (hinv : CatOffInv t) : CatOffInv t' := by
  obtain ⟨hlen, hbound, hlast⟩ := hinv
  obtain ⟨hmc, hoff, hpos⟩ := SetCategoricalSplit_fields h hlast
  have hnum : t'.num_nodes = t.num_nodes := SetCategoricalSplit_ok h
  have hsrtlen : (cats.insertionSort (fun a b => a ≤ b)).length = cats.length :=
    List.length_insertionSort _ _
  have hmclen : t'.matching_categories.length = t.matching_categories.length + cats.length := by
    rw [hmc, List.length_append, hsrtlen]
  have hdropne : (t.matching_categories_offset.drop (nid + 1)).map
      (fun _ => t.matching_categories.length + cats.length) ≠ [] := by
    simp only [ne_eq, List.map_eq_nil_iff, List.drop_eq_nil_iff]
    omega
  refine ⟨?_, ?_, ?_⟩
  · rw [hoff, hnum, List.length_append, List.length_map, List.length_drop, List.length_take]
    omega
  · intro a ha
    rw [hoff] at ha
    rw [hmclen]
    rcases List.mem_append.mp ha with ha | ha
    · have := hbound a (List.mem_of_mem_take ha)
      omega
    · obtain ⟨x, -, hx⟩ := List.mem_map.mp ha
      omega
  · rw [hoff, hmclen, List.getLastD_eq_getLast?, List.getLast?_append_of_ne_nil _ hdropne,
      ← List.getLastD_eq_getLast?]
    have : ∀ (l : List Nat) (c : Nat), l ≠ [] → (l.map (fun _ => c)).getLastD 0 = c := by
      intro l c hl
      induction l with
      | nil => exact absurd rfl hl
      | cons x xs ih =>
        cases xs with
        | nil => rfl
        | cons y ys =>
          rw [List.map_cons]
          rw [List.getLastD_cons]
          exact ih (by simp)
    rw [this _ _ (by simp only [ne_eq, List.drop_eq_nil_iff]; omega)]

theorem catOffInv_initTree : CatOffInv Tree.InitTree := by
  refine ⟨rfl, ?_, rfl⟩
  intro a ha
  rcases List.mem_cons.mp ha with h | h
  · omega
  · rcases List.mem_cons.mp h with h | h
    · omega
    · cases h

theorem runOp_preserves_catInvB {b b' : Builder} {op : BuilderOp}
    (hinv : CatInvB b) (h : runOp b op = Except.ok b') : CatInvB b' := by
  obtain ⟨htrees, hcur, hoffinv, hdetail⟩ := hinv
  cases op with
  | startTree =>
    simp only [runOp] at h
    obtain ⟨-, h⟩ := startTree_ok h
    subst h
    refine ⟨htrees, sortedTree_of_empty_pool rfl, fun _ => catOffInv_initTree, ?_⟩
    intro hc
    cases hc
  | endTree =>
    simp only [runOp] at h
    obtain ⟨-, h⟩ := endTree_ok h
    subst h
    refine ⟨?_, hcur, ?_, ?_⟩
    · intro t ht
      rcases List.mem_append.mp ht with ht | ht
      · exact htrees t ht
      · rw [List.mem_singleton.mp ht]
        obtain ⟨p1, p2⟩ := translateChildIds_pools b.node_id_map b.current_tree
        exact sortedTree_congr p1 p2 hcur
    · intro hc
      rcases hc with hc | hc | hc <;> cases hc
    · intro hc
      cases hc
  | startNode k =>
    simp only [runOp] at h
    unfold Builder.startNode at h
    split at h
    · exact absurd h (by simp)
    · rename_i hc
      split at h
      · exact absurd h (by simp)
      · rename_i t nid halloc
        injection h with h
        have hstate : b.current_state = BState.kExpectNode := by simpa using hc
        have hoinv : CatOffInv b.current_tree := hoffinv (Or.inl hstate)
        obtain ⟨hoinv1, hdet1⟩ := AllocNode_catOffInv halloc hoinv
        subst h
        refine ⟨htrees, ?_, fun _ => hoinv1, fun _ => hdet1⟩
        intro j
        rcases MatchingCategoriesAt_alloc halloc hoinv j with hj | hj
        · rw [hj]
          exact hcur j
        · rw [hj]
          exact List.sorted_nil
  | endNode =>
    simp only [runOp] at h
    unfold Builder.endNode at h
    split at h
    · exact absurd h (by simp)
    · rename_i hc
      injection h with h
      subst h
      refine ⟨htrees, hcur, ?_, ?_⟩
      · intro _
        exact hoffinv (Or.inr (Or.inr (by simpa using hc)))
      · intro hcontra
        cases hcontra
  | numericalTest si th dl cmp lk rk =>
    simp only [runOp] at h
    unfold Builder.numericalTest at h
    split at h
    · exact absurd h (by simp)
    · rename_i hc
      split at h
      · exact absurd h (by simp)
      · rename_i t hset
        obtain ⟨hn, hp1, hp2⟩ := SetNumericalSplit_ok hset
        injection h with h
        subst h
        have hstate : b.current_state = BState.kExpectDetail := by simpa using hc
        have hoinv : CatOffInv b.current_tree := hoffinv (Or.inr (Or.inl hstate))
        refine ⟨htrees, ?_, ?_, ?_⟩
        · exact sortedTree_congr (by simpa [Tree.SetChildren, Tree.setNode] using hp1)
            (by simpa [Tree.SetChildren, Tree.setNode] using hp2) hcur
        · intro _
          exact catOffInv_congr (by simpa [Tree.SetChildren, Tree.setNode] using hp1)
            (by simpa [Tree.SetChildren, Tree.setNode] using hp2)
            (by simpa [Tree.SetChildren, Tree.setNode] using hn) hoinv
        · intro hcontra
          cases hcontra
  | categoricalTest si dl cats clrc lk rk =>
    simp only [runOp] at h
    unfold Builder.categoricalTest at h
    split at h
    · exact absurd h (by simp)
    · rename_i hc
      split at h
      · exact absurd h (by simp)
      · rename_i t hset
        injection h with h
        subst h
        have hstate : b.current_state = BState.kExpectDetail := by simpa using hc
        have hoinv : CatOffInv b.current_tree := hoffinv (Or.inr (Or.inl hstate))
        have hdet : b.current_tree.matching_categories_offset.getD b.current_node_id 0 =
            b.current_tree.matching_categories.length := hdetail hstate
        obtain ⟨hat, hlo, hhi⟩ := MatchingCategoriesAt_setCat hset hoinv hdet
        have hsorted_t : SortedTree t := by
          intro j
          rcases Nat.lt_trichotomy j b.current_node_id with hj | hj | hj
          · rcases hlo j hj with he | he
            · rw [he]
              exact hcur j
            · rw [he]
              exact List.sorted_nil
          · subst hj
            rw [hat]
            exact List.sorted_insertionSort _ _
          · rw [hhi j hj]
            exact List.sorted_nil
        refine ⟨htrees, ?_, ?_, ?_⟩
        · exact sortedTree_congr (by simp [Tree.SetChildren, Tree.setNode])
            (by simp [Tree.SetChildren, Tree.setNode]) hsorted_t
        · intro _
          exact catOffInv_congr (by simp [Tree.SetChildren, Tree.setNode])
            (by simp [Tree.SetChildren, Tree.setNode])
            (by simp [Tree.SetChildren, Tree.setNode]) (setCat_catOffInv hset hoinv)
        · intro hcontra
          cases hcontra
  | leafScalar v =>
    simp only [runOp] at h
    unfold Builder.leafScalar at h
    split at h
    · exact absurd h (by simp)
    · rename_i hc
      injection h with h
      subst h
      have hstate : b.current_state = BState.kExpectDetail := by simpa using hc
      have hoinv : CatOffInv b.current_tree := hoffinv (Or.inr (Or.inl hstate))
      refine ⟨htrees, ?_, ?_, ?_⟩
      · exact sortedTree_congr (by simp [Tree.SetLeaf, Tree.setNode])
          (by simp [Tree.SetLeaf, Tree.setNode]) hcur
      · intro _
        exact catOffInv_congr (by simp [Tree.SetLeaf, Tree.setNode])
          (by simp [Tree.SetLeaf, Tree.setNode]) (by simp [Tree.SetLeaf, Tree.setNode]) hoinv
      · intro hcontra
        cases hcontra
  | leafVectorF32 vs =>
    simp only [runOp] at h
    unfold Builder.leafVectorF32 at h
    split at h
    · exact absurd h (by simp)
    · rename_i hc
      split at h
      · exact absurd h (by simp)
      · injection h with h
        subst h
        have hstate : b.current_state = BState.kExpectDetail := by simpa using hc
        have hoinv : CatOffInv b.current_tree := hoffinv (Or.inr (Or.inl hstate))
        refine ⟨htrees, ?_, ?_, ?_⟩
        · exact sortedTree_congr (by simp [Tree.SetLeafVector, Tree.setNode])
            (by simp [Tree.SetLeafVector, Tree.setNode]) hcur
        · intro _
          exact catOffInv_congr (by simp [Tree.SetLeafVector, Tree.setNode])
            (by simp [Tree.SetLeafVector, Tree.setNode])
            (by simp [Tree.SetLeafVector, Tree.setNode]) hoinv
        · intro hcontra
          cases hcontra
  | leafVectorF64 vs =>
    simp only [runOp] at h
    unfold Builder.leafVectorF64 at h
    split at h
    · exact absurd h (by simp)
    · rename_i hc
      split at h
      · exact absurd h (by simp)
      · injection h with h
        subst h
        have hstate : b.current_state = BState.kExpectDetail := by simpa using hc
        have hoinv : CatOffInv b.current_tree := hoffinv (Or.inr (Or.inl hstate))
        refine ⟨htrees, ?_, ?_, ?_⟩
        · exact sortedTree_congr (by simp [Tree.SetLeafVector, Tree.setNode])
            (by simp [Tree.SetLeafVector, Tree.setNode]) hcur
        · intro _
          exact catOffInv_congr (by simp [Tree.SetLeafVector, Tree.setNode])
            (by simp [Tree.SetLeafVector, Tree.setNode])
            (by simp [Tree.SetLeafVector, Tree.setNode]) hoinv
        · intro hcontra
          cases hcontra
  | gain g =>
    simp only [runOp] at h
    unfold Builder.gain at h
    split at h
    · exact absurd h (by simp)
    · injection h with h
      subst h
      refine ⟨htrees, ?_, ?_, ?_⟩
      · exact sortedTree_congr (by simp [Tree.SetGain, Tree.setNode])
          (by simp [Tree.SetGain, Tree.setNode]) hcur
      · intro hs
        exact catOffInv_congr (by simp [Tree.SetGain, Tree.setNode])
          (by simp [Tree.SetGain, Tree.setNode]) (by simp [Tree.SetGain, Tree.setNode])
          (hoffinv (by simpa using hs))
      · intro hs
        have := hdetail (by simpa using hs)
        simpa [Tree.SetGain, Tree.setNode] using this
  | dataCount c =>
    simp only [runOp] at h
    unfold Builder.dataCount at h
    split at h
    · exact absurd h (by simp)
    · injection h with h
      subst h
      refine ⟨htrees, ?_, ?_, ?_⟩
      · exact sortedTree_congr (by simp [Tree.SetDataCount, Tree.setNode])
          (by simp [Tree.SetDataCount, Tree.setNode]) hcur
      · intro hs
        exact catOffInv_congr (by simp [Tree.SetDataCount, Tree.setNode])
          (by simp [Tree.SetDataCount, Tree.setNode])
          (by simp [Tree.SetDataCount, Tree.setNode]) (hoffinv (by simpa using hs))
      · intro hs
        have := hdetail (by simpa using hs)
        simpa [Tree.SetDataCount, Tree.setNode] using this
  | sumHess sh =>
    simp only [runOp] at h
    unfold Builder.sumHess at h
    split at h
    · exact absurd h (by simp)
    · injection h with h
      subst h
      refine ⟨htrees, ?_, ?_, ?_⟩
      · exact sortedTree_congr (by simp [Tree.SetSumHess, Tree.setNode])
          (by simp [Tree.SetSumHess, Tree.setNode]) hcur
      · intro hs
        exact catOffInv_congr (by simp [Tree.SetSumHess, Tree.setNode])
          (by simp [Tree.SetSumHess, Tree.setNode])
          (by simp [Tree.SetSumHess, Tree.setNode]) (hoffinv (by simpa using hs))
      · intro hs
        have := hdetail (by simpa using hs)
        simpa [Tree.SetSumHess, Tree.setNode] using this

theorem runOps_preserves_catInvB :
    ∀ (ops : List BuilderOp) {b b' : Builder},
      CatInvB b → runOps b ops = Except.ok b' → CatInvB b' := by
  intro ops
  induction ops with
  | nil =>
    intro b b' hinv h
    injection h with h
    exact h ▸ hinv
  | cons op ops ih =>
    intro b b' hinv h
    unfold runOps at h
    split at h
    · exact absurd h (by simp)
    · rename_i b1 hop
      exact ih (runOp_preserves_catInvB hinv hop) h

theorem initializeModel_catInvB {tt lt : TypeInfo} {nf : Nat} {task : TaskType} {avg : Bool}
    {ntg : Nat} {ncl lvs : List Nat} {ntr : Nat} {tid cid : List Int} {pp : String}
    {bs : List ℚ} {b0 : Builder}
    (h : initializeModel tt lt nf task avg ntg ncl lvs ntr tid cid pp bs = Except.ok b0) :
    CatInvB b0 := by
  unfold initializeModel at h
  repeat' split at h
  any_goals contradiction
  injection h with h
  subst h
  refine ⟨?_, sortedTree_of_empty_pool rfl, ?_, ?_⟩
  · intro t ht
    cases ht
  · intro hc
    rcases hc with hc | hc | hc <;> cases hc
  · intro hc
    cases hc

/-- C9 amended: for every builder-constructed model, every node of every
    tree (committed or in progress) has its category list sorted in
    ascending order.  (Deduplication does not hold: see the
    counterexample, where the list [5,5,2] is stored as [2,5,5].) -/
theorem claim9_amended (tt lt : TypeInfo) (nf : Nat) (task : TaskType) (avg : Bool)
    (ntg : Nat) (ncl lvs : List Nat) (ntr : Nat) (tid cid : List Int) (pp : String)
    (bs : List ℚ) (b0 b' : Builder) (ops : List BuilderOp)
    (hinit : initializeModel tt lt nf task avg ntg ncl lvs ntr tid cid pp bs = Except.ok b0)
    (hrun : runOps b0 ops = Except.ok b') :
    (∀ t ∈ b'.trees, ∀ nid, (t.MatchingCategoriesAt nid).Sorted (· ≤ ·))
    ∧ (∀ nid, (b'.current_tree.MatchingCategoriesAt nid).Sorted (· ≤ ·)) := by
  obtain ⟨h1, h2, -, -⟩ :=
    runOps_preserves_catInvB ops (initializeModel_catInvB hinit) hrun
  exact ⟨h1, h2⟩

/-- C9 counterexample: SetCategoricalSplit sorts but does not deduplicate —
    passing the category list [5,5,2] through the builder stores [2,5,5],
    which is sorted but contains the duplicate 5, refuting the claim that
    category lists contain no duplicate values. -/
theorem claim9_cex :
    ∃ b, (match c9Builder with
          | Except.error e => Except.error e
          | Except.ok b0 => runOps b0 c9ops) = Except.ok b
      ∧ (b.trees.getD 0 Tree.emptyTree).MatchingCategoriesAt 1 = [2, 5, 5]
      ∧ ¬ ((b.trees.getD 0 Tree.emptyTree).MatchingCategoriesAt 1).Nodup := by
  refine ⟨_, rfl, by with_unfolding_all decide, by with_unfolding_all decide⟩

/-- C9 witness: sortedness of every category list on the concrete trace. -/
theorem claim9_witness :
    (∀ t ∈ c9bf.trees, ∀ nid, (t.MatchingCategoriesAt nid).Sorted (· ≤ ·))
    ∧ (∀ nid, (c9bf.current_tree.MatchingCategoriesAt nid).Sorted (· ≤ ·)) :=
  claim9_amended TypeInfo.kFloat32 TypeInfo.kFloat32 1 TaskType.kBinaryClf false
    1 [1] [1, 1] 1 [0] [0] "identity" [0] c9b0 c9bf c9ops
    (by with_unfolding_all decide) (by with_unfolding_all decide)

/-! ### Round-trip and version-gate lemmas for the serializer (C7, C8) -/
theorem int_toNat_ofNat (n : Nat) : (Int.ofNat n).toNat = n := rfl

theorem skipFields_replicate (k : Nat) (rest : List SFrame) :
    skipFields k (List.replicate k SFrame.optSlot ++ rest) = Except.ok rest := by
  induction k with
  | zero => rfl
  | succ n ih =>
    rw [List.replicate_succ, List.cons_append]
    exact ih

theorem readOptCount_round (k : Nat) (rest : List SFrame) :
    readOptCount (SFrame.i32 (Int.ofNat k) :: (List.replicate k SFrame.optSlot ++ rest))
      = Except.ok (Int.ofNat k, rest) := by
  simp [readOptCount, readI32, int_toNat_ofNat, skipFields_replicate]

set_option maxHeartbeats 2000000 in
theorem deserializeTree_genRound (kT kN : Nat) (t : STree) (rest : List SFrame) :
    deserializeTree (serializeTreeGen kT kN t ++ rest)
      = Except.ok (stampTreeCounts kT kN t, rest) := by
  simp only [deserializeTree, serializeTreeGen, List.cons_append, List.nil_append,
    List.append_assoc, readI32, readBool, readArrNType, readArrI32, readArrBool,
    readArrFlt, readArrOp, readArrU64, readArrU32, readArrF64, except_ok_bind,
    readOptCount_round, stampTreeCounts]

theorem deserializeTrees_round (kT kN : Nat) (ts : List STree) (rest : List SFrame) :
    deserializeTrees ts.length (serializeTreeListGen kT kN ts ++ rest)
      = Except.ok (ts.map (stampTreeCounts kT kN), rest) := by
  induction ts generalizing rest with
  | nil => rfl
  | cons t ts ih =>
    simp only [serializeTreeListGen, List.length_cons, List.append_assoc, List.map_cons]
    simp only [deserializeTrees, deserializeTree_genRound, ih]

theorem deserializeTrees_round_nil (kT kN : Nat) (ts : List STree) :
    deserializeTrees ts.length (serializeTreeListGen kT kN ts)
      = Except.ok (ts.map (stampTreeCounts kT kN), []) := by
  have h := deserializeTrees_round kT kN ts []
  rwa [List.append_nil] at h

set_option maxHeartbeats 2000000 in
theorem deserializeModel_genRound (cur ver : Int × Int × Int) (kM kT kN : Nat) (m : SModel)
    (hver : ¬(ver.1 ≠ cur.1 ∧ ¬(ver.1 = 3 ∧ ver.2.1 = 9)))
    (ht : m.threshold_type = TypeInfo.kFloat32 ∨ m.threshold_type = TypeInfo.kFloat64)
    (hl : m.leaf_output_type = TypeInfo.kUInt32 ∨ m.leaf_output_type = m.threshold_type) :
    deserializeModel cur (serializeModelGen ver kM kT kN m)
      = Except.ok (stampModel ver kM kT kN m,
                   decide (ver.1 = cur.1 ∧ cur.2.1 < ver.2.1), []) := by
  rcases ht with ht | ht <;> rcases hl with hl | hl <;>
    simp only [deserializeModel, serializeModelGen, serializeHeaderGen,
      List.cons_append, List.nil_append, List.append_assoc,
      readI32, readTInfo, readU64, readTType, readBool, readU32, readArrU32,
      readArrI32, readStr, readF32, readArrF64, except_ok_bind,
      readOptCount_round, deserializeTrees_round_nil, stampModel,
      ht, hl, if_neg hver] <;>
    simp [ht, hl]

theorem dumpView_stampTreeCounts (kT kN : Nat) (t : STree) :
    (stampTreeCounts kT kN t).dumpView = t.dumpView := rfl

/-- C7: a serialization round trip at the current library version succeeds
    and reproduces the model exactly, up to the version stamp and the
    (dump-invisible) extension bookkeeping; in particular the JSON dump of
    the reconstructed model equals the dump of the original.  The frame
    list models both transports (PyBuffer and stream), which share the
    Serializer/Deserializer pair of serializer.cc. -/
theorem claim7_roundtrip (cur : Int × Int × Int) (m : SModel)
    (ht : m.threshold_type = TypeInfo.kFloat32 ∨ m.threshold_type = TypeInfo.kFloat64)
    (hl : m.leaf_output_type = TypeInfo.kUInt32 ∨ m.leaf_output_type = m.threshold_type) :
    deserializeModel cur (serializeModel cur m)
      = Except.ok (stampModel cur 0 0 0 m, false, [])
    ∧ (stampModel cur 0 0 0 m).dumpView = m.dumpView := by
  constructor
  · have h := deserializeModel_genRound cur cur 0 0 0 m (by simp) ht hl
    simpa using h
  · simp [stampModel, SModel.dumpView, List.map_map, Function.comp_def,
      dumpView_stampTreeCounts]

/-- C7 witness: the round trip evaluated on a concrete one-tree model. -/
theorem claim7_witness :
    (smSample.threshold_type = TypeInfo.kFloat32
      ∨ smSample.threshold_type = TypeInfo.kFloat64)
    ∧ (smSample.leaf_output_type = TypeInfo.kUInt32
      ∨ smSample.leaf_output_type = smSample.threshold_type)
    ∧ (deserializeModel (4, 1, 0) (serializeModel (4, 1, 0) smSample)
        = Except.ok (stampModel (4, 1, 0) 0 0 0 smSample, false, [])
      ∧ (stampModel (4, 1, 0) 0 0 0 smSample).dumpView = smSample.dumpView) :=
  ⟨Or.inl rfl, Or.inr rfl,
   claim7_roundtrip (4, 1, 0) smSample (Or.inl rfl) (Or.inr rfl)⟩

/-- C8: the deserializer's version gate.  (a) An input whose stamped major
    version differs from the current one is a fatal error unless the input
    is stamped 3.9.  (b) An input with the current major version and a
    newer minor version is accepted with the warning flag set, each of the
    three extension slots being skipped by its recorded count.  (c) An
    input stamped 3.9 is accepted even under a different current major
    version (without the newer-minor warning). -/
theorem claim8_version_gate :
    (∀ (cur : Int × Int × Int) (maj mnr pat : Int) (rest : List SFrame),
        maj ≠ cur.1 → ¬(maj = 3 ∧ mnr = 9) →
        ∃ e, deserializeModel cur
              (SFrame.i32 maj :: SFrame.i32 mnr :: SFrame.i32 pat :: rest)
            = Except.error e)
    ∧ (∀ (cur ver : Int × Int × Int) (kM kT kN : Nat) (m : SModel),
        ver.1 = cur.1 → cur.2.1 < ver.2.1 →
        (m.threshold_type = TypeInfo.kFloat32
          ∨ m.threshold_type = TypeInfo.kFloat64) →
        (m.leaf_output_type = TypeInfo.kUInt32
          ∨ m.leaf_output_type = m.threshold_type) →
        deserializeModel cur (serializeModelGen ver kM kT kN m)
          = Except.ok (stampModel ver kM kT kN m, true, []))
    ∧ (∀ (cur : Int × Int × Int) (pat : Int) (kM kT kN : Nat) (m : SModel),
        cur.1 ≠ 3 →
        (m.threshold_type = TypeInfo.kFloat32
          ∨ m.threshold_type = TypeInfo.kFloat64) →
        (m.leaf_output_type = TypeInfo.kUInt32
          ∨ m.leaf_output_type = m.threshold_type) →
        deserializeModel cur (serializeModelGen (3, 9, pat) kM kT kN m)
          = Except.ok (stampModel (3, 9, pat) kM kT kN m, false, [])) := by
  refine ⟨?_, ?_, ?_⟩
  · intro cur maj mnr pat rest h1 h2
    refine ⟨"Cannot load model from a different major Treelite version or a version before 3.9.0.", ?_⟩
    simp only [deserializeModel, readI32, except_ok_bind]
    rw [if_pos ⟨h1, h2⟩]
  · intro cur ver kM kT kN m hv1 hv2 ht hl
    have h := deserializeModel_genRound cur ver kM kT kN m
      (fun hc => hc.1 hv1) ht hl
    rw [h]
    simp [hv1, hv2]
  · intro cur pat kM kT kN m hc ht hl
    have h := deserializeModel_genRound cur (3, 9, pat) kM kT kN m (by simp) ht hl
    rw [h]
    simp [hc.symm]

/-- C8 witness: the version gate evaluated at concrete versions — current
    4.1.0 rejects a 5.0.0 input, accepts a 4.3.2 input with warning while
    skipping extension counts 1/2/1, and accepts a 3.9.5 input without
    warning. -/
theorem claim8_witness :
    ((5 : Int) ≠ 4 ∧ ¬((5 : Int) = 3 ∧ (0 : Int) = 9))
    ∧ (∃ e, deserializeModel (4, 1, 0)
          [SFrame.i32 5, SFrame.i32 0, SFrame.i32 0] = Except.error e)
    ∧ deserializeModel (4, 1, 0) (serializeModelGen (4, 3, 2) 1 2 1 smSample)
        = Except.ok (stampModel (4, 3, 2) 1 2 1 smSample, true, [])
    ∧ deserializeModel (4, 1, 0) (serializeModelGen (3, 9, 5) 1 0 0 smSample)
        = Except.ok (stampModel (3, 9, 5) 1 0 0 smSample, false, []) :=
  ⟨by decide,
   claim8_version_gate.1 (4, 1, 0) 5 0 0 [] (by decide) (by decide),
   claim8_version_gate.2.1 (4, 1, 0) (4, 3, 2) 1 2 1 smSample rfl (by decide)
     (Or.inl rfl) (Or.inr rfl),
   claim8_version_gate.2.2 (4, 1, 0) 5 1 0 0 smSample (by decide)
     (Or.inl rfl) (Or.inr rfl)⟩

end Treelite
